import Mathlib

/-!
Shallow embedding of the digtask task runner (Rust sources under `src/`),
used to settle the claims of the specification against the code.

Conventions of the embedding:
* `serde_json::Value` becomes the inductive `Json` (numbers as `Int`).
* Rust `HashMap<String, JsonValue>` becomes an association list with
  insert-replace semantics (`VariableMap`).
* Effectful operations (spawning subprocesses, reading file metadata,
  checking that a directory exists) are parameterised by a `World` record of
  oracles; the pure control flow around them is translated from the source.
* `Result<T>` becomes `Except DigError T`.
-/

namespace Digtask

/-- Model of `serde_json::Value`.  Numbers are modelled as integers; no claim
depends on float behaviour. -/
inductive Json where
  | null : Json
  | bool (b : Bool) : Json
  | num (n : Int) : Json
  | str (s : String) : Json
  | arr (elems : List Json) : Json
  | obj (fields : List (String × Json)) : Json
deriving Inhabited

mutual

/-- Boolean structural equality on `Json` (`serde_json::Value`'s
`PartialEq`). -/
def Json.beq : Json → Json → Bool
  | .null, .null => true
  | .bool a, .bool b => a == b
  | .num a, .num b => a == b
  | .str a, .str b => a == b
  | .arr xs, .arr ys => Json.beqList xs ys
  | .obj xs, .obj ys => Json.beqFields xs ys
  | _, _ => false

/-- Elementwise equality of JSON arrays. -/
def Json.beqList : List Json → List Json → Bool
  | [], [] => true
  | x :: xs, y :: ys => Json.beq x y && Json.beqList xs ys
  | _, _ => false

/-- Elementwise equality of JSON object field lists. -/
def Json.beqFields : List (String × Json) → List (String × Json) → Bool
  | [], [] => true
  | (k, v) :: xs, (l, w) :: ys =>
      k == l && Json.beq v w && Json.beqFields xs ys
  | _, _ => false

end

/-- Errors are carried as plain strings (`anyhow::Error`). -/
abbrev DigError := String

/-- Render a string as a JSON string literal (the part of
`serde_json::to_string` the embedding needs: quotes, backslashes and the
common control characters are escaped). -/
def renderJsonString (s : String) : String :=
  let escape : Char → String := fun c =>
    if c = '"' then "\\\""
    else if c = '\\' then "\\\\"
    else if c = '\n' then "\\n"
    else if c = '\t' then "\\t"
    else if c = '\r' then "\\r"
    else String.singleton c
  "\"" ++ String.join (s.data.map escape) ++ "\""

mutual

/-- Model of `serde_json::to_string` on the embedded `Json` values. -/
def Json.render : Json → String
  | .null => "null"
  | .bool true => "true"
  | .bool false => "false"
  | .num n => toString n
  | .str s => renderJsonString s
  | .arr elems => "[" ++ Json.renderList elems ++ "]"
  | .obj fields => "\x7b" ++ Json.renderFields fields ++ "\x7d"

/-- Comma-separated rendering of array elements. -/
def Json.renderList : List Json → String
  | [] => ""
  | [x] => x.render
  | x :: rest => x.render ++ "," ++ Json.renderList rest

/-- Comma-separated rendering of object fields. -/
def Json.renderFields : List (String × Json) → String
  | [] => ""
  | [(k, v)] => renderJsonString k ++ ":" ++ v.render
  | (k, v) :: rest =>
      renderJsonString k ++ ":" ++ v.render ++ "," ++ Json.renderFields rest

end

/-- Model of `HashMap<String, JsonValue>` (`vars.rs::VariableMap`): an
association list where `insert` replaces any previous binding. -/
abbrev VariableMap := List (String × Json)

/-- Lookup in a variable map (`HashMap::get`). -/
def VariableMap.get (m : VariableMap) (key : String) : Option Json :=
  match m with
  | [] => none
  | (k, v) :: rest => if k = key then some v else VariableMap.get rest key

/-- Insertion in a variable map (`HashMap::insert`): the new binding shadows
and removes any previous binding for the key. -/
def VariableMap.insert (m : VariableMap) (key : String) (value : Json) :
    VariableMap :=
  (key, value) :: (m.filter fun p => p.1 ≠ key)

/-- The empty variable map (`HashMap::new`). -/
def VariableMap.empty : VariableMap := []

/-- Model of `vars.rs::VariableMapStack`: a stack of variable maps, newest
frame last. -/
abbrev VariableMapStack := List VariableMap

/-- Search a list of frames front-to-back for a key.  Helper for the
newest-first lookups, which reverse the stack before calling it. -/
def lookupFrames : List VariableMap → String → Option Json
  | [], _ => none
  | m :: rest, key =>
      match m.get key with
      | some v => some v
      | none => lookupFrames rest key

/-- Model of `VariableMapStackTrait::get_key` (vars.rs): walk the stack from
the newest frame to the oldest; missing keys are an error. -/
def VariableMapStack.getKey (stack : VariableMapStack) (key : String) :
    Except DigError Json :=
  match lookupFrames stack.reverse key with
  | some v => .ok v
  | none => .error ("Failed to insert key '" ++ key ++ "'")

/-- Character class of a token body in `token.rs::parse_token`:
`[a-zA-Z0-9. _-]`. -/
def isTokenChar (c : Char) : Bool :=
  ('a' ≤ c && c ≤ 'z') || ('A' ≤ c && c ≤ 'Z') || ('0' ≤ c && c ≤ '9') ||
    c == '.' || c == ' ' || c == '_' || c == '-'

/-- Model of `token.rs::is_control_char`. -/
def isControlChar (c : Char) : Bool :=
  c == '\x7b' || c == '/'

/-- Model of `token.rs::ParsedElement`. -/
inductive ParsedElement where
  | token (body : List Char)
  | literal (chars : List Char)
deriving DecidableEq

/-- Model of `str::trim` on a character list (whitespace stripped from both
ends). -/
def trimChars (cs : List Char) : List Char :=
  ((cs.dropWhile Char.isWhitespace).reverse.dropWhile Char.isWhitespace).reverse

/-- Model of `token.rs::parse_token`: `{{`, one or more token-class
characters (greedy), `}}`; the body is trimmed. -/
def parseToken : List Char → Option (ParsedElement × List Char)
  | '\x7b' :: '\x7b' :: rest =>
      match rest.takeWhile isTokenChar with
      | [] => none
      | body =>
          match rest.dropWhile isTokenChar with
          | '\x7d' :: '\x7d' :: rest2 => some (.token (trimChars body), rest2)
          | _ => none
  | _ => none

/-- Scan for the first `*/`, returning the characters before it and the
remainder after it (`take_until` inside `token.rs::parse_comment`). -/
def takeUntilCommentClose : List Char → Option (List Char × List Char)
  | [] => none
  | '*' :: '/' :: rest => some ([], rest)
  | c :: rest =>
      match takeUntilCommentClose rest with
      | none => none
      | some (body, rest2) => some (c :: body, rest2)

/-- Model of `token.rs::parse_comment`: `/*`, anything up to the first `*/`,
`*/`; the interior is emitted as a literal. -/
def parseComment : List Char → Option (ParsedElement × List Char)
  | '/' :: '*' :: rest =>
      match takeUntilCommentClose rest with
      | none => none
      | some (body, rest2) => some (.literal body, rest2)
  | _ => none

/-- Model of `token.rs::parse_literal`: one arbitrary character followed by a
run of non-control characters. -/
def parseLiteral : List Char → Option (ParsedElement × List Char)
  | [] => none
  | c :: rest =>
      some (.literal (c :: rest.takeWhile fun d => !isControlChar d),
        rest.dropWhile fun d => !isControlChar d)

/-- Model of `token.rs::parse_element`: try token, then comment, then
literal. -/
def parseElement (cs : List Char) : Option (ParsedElement × List Char) :=
  match parseToken cs with
  | some r => some r
  | none =>
      match parseComment cs with
      | some r => some r
      | none => parseLiteral cs

/-- Fuelled loop of `token.rs::parse_all_elements`; each successful
`parse_element` consumes at least one character, so fuel equal to the input
length always suffices. -/
def parseAllElementsFuel : Nat → List Char → Option (List ParsedElement)
  | _, [] => some []
  | 0, _ :: _ => none
  | fuel + 1, c :: cs =>
      match parseElement (c :: cs) with
      | none => none
      | some (e, rest) =>
          match parseAllElementsFuel fuel rest with
          | none => none
          | some es => some (e :: es)

/-- Model of `token.rs::parse_all_elements`. -/
def parseAllElements (cs : List Char) : Option (List ParsedElement) :=
  parseAllElementsFuel cs.length cs

/-- String form of one element in the concatenation branch of
`token.rs::evaluate_tokens`: literals verbatim, token values raw when they
are strings and JSON-serialised otherwise. -/
def elementToString (lookup : String → Except DigError Json) :
    ParsedElement → Except DigError String
  | .literal v => .ok (String.mk v)
  | .token key =>
      match lookup (String.mk key) with
      | .error e => .error e
      | .ok (.str s) => .ok s
      | .ok other => .ok other.render

/-- Core algorithm of `token.rs::evaluate_tokens`, abstracted over the
variable lookup: empty element list gives null, a lone token returns the
variable's value unchanged, a lone literal gives a string, and longer lists
concatenate the parts into one string. -/
def evaluateTokensWith (lookup : String → Except DigError Json)
    (input : String) : Except DigError Json :=
  match parseAllElements input.data with
  | none => .error ("Failed to parse '" ++ input ++ "'")
  | some [] => .ok .null
  | some [ParsedElement.token key] => lookup (String.mk key)
  | some [ParsedElement.literal value] => .ok (.str (String.mk value))
  | some elements =>
      match elements.mapM (elementToString lookup) with
      | .error e => .error e
      | .ok parts => .ok (.str (String.join parts))

/-- Model of `token.rs::evaluate_tokens`: the algorithm above with lookup in
a `VariableMapStack` via `get_key`. -/
def evaluateTokens (input : String) (varStack : VariableMapStack) :
    Except DigError Json :=
  evaluateTokensWith (fun k => varStack.getKey k) input

theorem takeWhile_append_of_all (p : Char → Bool) (l r : List Char)
    (h : ∀ c ∈ l, p c = true) :
    (l ++ r).takeWhile p = l ++ r.takeWhile p := by
  induction l with
  | nil => simp
  | cons a as ih =>
      have ha : p a = true := h a (by simp)
      simp only [List.cons_append, List.takeWhile_cons, ha, if_true]
      rw [ih fun c hc => h c (by simp [hc])]

theorem dropWhile_append_of_all (p : Char → Bool) (l r : List Char)
    (h : ∀ c ∈ l, p c = true) :
    (l ++ r).dropWhile p = r.dropWhile p := by
  induction l with
  | nil => simp
  | cons a as ih =>
      have ha : p a = true := h a (by simp)
      simp only [List.cons_append, List.dropWhile_cons, ha, if_true]
      exact ih fun c hc => h c (by simp [hc])

theorem parseToken_bare (k : List Char)
    (hclass : ∀ c ∈ k, isTokenChar c = true) (hne : k ≠ []) :
    parseToken ('\x7b' :: '\x7b' :: (k ++ ['\x7d', '\x7d'])) =
      some (.token (trimChars k), []) := by
  have ht : (k ++ ['\x7d', '\x7d']).takeWhile isTokenChar = k := by
    rw [takeWhile_append_of_all _ _ _ hclass]
    simp [List.takeWhile, isTokenChar]
  have hd : (k ++ ['\x7d', '\x7d']).dropWhile isTokenChar = ['\x7d', '\x7d'] := by
    rw [dropWhile_append_of_all _ _ _ hclass]
    simp [List.dropWhile, isTokenChar]
  cases k with
  | nil => exact absurd rfl hne
  | cons a as =>
      simp only [parseToken, ht, hd]

theorem parseAllElements_bare (k : List Char)
    (hclass : ∀ c ∈ k, isTokenChar c = true) (hne : k ≠ []) :
    parseAllElements ('\x7b' :: '\x7b' :: (k ++ ['\x7d', '\x7d'])) =
      some [.token (trimChars k)] := by
  have hstep := parseToken_bare k hclass hne
  have helem : parseElement ('\x7b' :: '\x7b' :: (k ++ ['\x7d', '\x7d'])) =
      some (.token (trimChars k), []) := by
    simp [parseElement, hstep]
  show parseAllElementsFuel _ _ = _
  have hlen : ('\x7b' :: '\x7b' :: (k ++ ['\x7d', '\x7d'])).length =
      (k.length + 3) + 1 := by
    simp
  rw [hlen]
  simp [parseAllElementsFuel, helem]

/-- C6 (amended): for every key `k` drawn from the token character class that
carries no leading or trailing whitespace, expanding the string `{{k}}`
against a variable stack is exactly the stack lookup of `k`: a bound value
is returned unchanged (its JSON type preserved) and an unbound key is an
error. -/
theorem bare_token_type_preservation (k : String) (stack : VariableMapStack)
    (hclass : ∀ c ∈ k.data, isTokenChar c = true)
    (hne : k.data ≠ [])
    (htrim : trimChars k.data = k.data) :
    evaluateTokens ("\x7b\x7b" ++ k ++ "\x7d\x7d") stack = stack.getKey k := by
  have hdata : ("\x7b\x7b" ++ k ++ "\x7d\x7d").data =
      '\x7b' :: '\x7b' :: (k.data ++ ['\x7d', '\x7d']) := by
    cases k with
    | mk d => rfl
  have hmk : String.mk k.data = k := by
    cases k with
    | mk d => rfl
  have hparse := parseAllElements_bare k.data hclass hne
  rw [htrim] at hparse
  simp [evaluateTokens, evaluateTokensWith, hdata, hparse, hmk]

/-- Closed witness for C6: expanding `{{who}}` when `who` is bound to a JSON
array returns the array itself. -/
theorem bare_token_type_preservation_witness :
    evaluateTokens "\x7b\x7bwho\x7d\x7d" [[("who", Json.arr [Json.num 1])]] =
      VariableMapStack.getKey [[("who", Json.arr [Json.num 1])]] "who" :=
  bare_token_type_preservation "who" [[("who", Json.arr [Json.num 1])]]
    (by decide) (by decide) (by decide)

/-- C6 counterexample: the claim as stated quantifies over every key made of
the token character class, which includes the space character.  The key
`"x "` (trailing space) is in that class and is bound, yet expanding
`"{{x }}"` is an error (the parser trims the token body and looks up `"x"`),
not the bound value. -/
theorem bare_token_counterexample :
    (∀ c ∈ ("x " : String).data, isTokenChar c = true) ∧
    VariableMapStack.getKey [[("x ", Json.num 5)]] "x " = .ok (Json.num 5) ∧
    evaluateTokens "\x7b\x7bx \x7d\x7d" [[("x ", Json.num 5)]] ≠
      .ok (Json.num 5) := by
  refine ⟨by decide, rfl, ?_⟩
  have h : evaluateTokens "\x7b\x7bx \x7d\x7d" [[("x ", Json.num 5)]] =
      Except.error "Failed to insert key 'x'" := rfl
  rw [h]
  intro hc
  exact Except.noConfusion hc

/-- Model of `core/run_context.rs::ForcingContext`. -/
inductive ForcingContext where
  | notForced
  | parentIsForced
  | explicitlyForced
  | forcedAsMainTask
  | everythingForced
deriving DecidableEq, Repr, Inhabited

/-- Model of `core/run_context.rs::ForcingBehaviour`. -/
inductive ForcingBehaviour where
  | never
  | always
  | inherit
deriving DecidableEq, Repr, Inhabited

/-- Model of `EnvConfig = Option<HashMap<String, String>>`, as an association
list with insert-replace semantics. -/
abbrev EnvMap := List (String × String)

/-- Insertion into an environment overlay map (`HashMap::insert`). -/
def EnvMap.insert (m : EnvMap) (key value : String) : EnvMap :=
  (key, value) :: (m.filter fun p => p.1 ≠ key)

/-- Model of `core/run_context.rs::RunContext`. -/
structure RunContext where
  forcing : ForcingContext
  env : Option EnvMap
  dir : Option String
  silent : Bool
deriving DecidableEq, Inhabited

/-- Model of `RunContext::default`. -/
def RunContext.default : RunContext :=
  { forcing := .notForced, env := none, dir := none, silent := false }

/-- Model of `RunContext::child_context` (core/run_context.rs lines 58-85). -/
def RunContext.childContext (self : RunContext)
    (childBehavior : ForcingBehaviour) : RunContext :=
  let forcing :=
    match self.forcing with
    | .everythingForced => ForcingContext.everythingForced
    | .forcedAsMainTask => ForcingContext.explicitlyForced
    | .explicitlyForced =>
        match childBehavior with
        | .always => ForcingContext.explicitlyForced
        | .inherit => ForcingContext.explicitlyForced
        | .never => ForcingContext.notForced
    | .parentIsForced =>
        match childBehavior with
        | .always => ForcingContext.explicitlyForced
        | .inherit => ForcingContext.parentIsForced
        | .never => ForcingContext.notForced
    | .notForced =>
        match childBehavior with
        | .always => ForcingContext.explicitlyForced
        | .inherit => ForcingContext.notForced
        | .never => ForcingContext.notForced
  { forcing := forcing
    env := self.env
    dir := self.dir
    silent := self.silent }

/-- Model of `RunContext::is_forced` (core/run_context.rs lines 87-95). -/
def RunContext.isForced (self : RunContext) : Bool :=
  match self.forcing with
  | .everythingForced => true
  | .forcedAsMainTask => true
  | .explicitlyForced => true
  | .parentIsForced => false
  | .notForced => false

/-- Model of `core/vars.rs::StackMode`. -/
inductive StackMode where
  | emptyLocals
  | copyLocals
deriving DecidableEq, Inhabited

/-- Model of `core/vars.rs::VariableSet`: a stack of parent frames plus one
local frame. -/
structure VariableSet where
  stackedVars : VariableMapStack
  localVars : VariableMap
deriving Inhabited

/-- Model of `VariableSet::new`. -/
def VariableSet.new : VariableSet :=
  { stackedVars := [], localVars := [] }

/-- Model of `VariableSet::get_from_locals`. -/
def VariableSet.getFromLocals (self : VariableSet) (key : String) :
    Option Json :=
  self.localVars.get key

/-- Model of `VariableSet::get`: the local frame first, then the stacked
frames from newest to oldest; a missing key is an error. -/
def VariableSet.get (self : VariableSet) (key : String) :
    Except DigError Json :=
  match self.getFromLocals key with
  | some v => .ok v
  | none =>
      match lookupFrames self.stackedVars.reverse key with
      | some v => .ok v
      | none => .error ("Failed to get key '" ++ key ++ "'")

/-- Model of `VariableSet::get_from_parent`: lookup in the newest stacked
frame only. -/
def VariableSet.getFromParent (self : VariableSet) (key : String) :
    Option Json :=
  match self.stackedVars.getLast? with
  | some parent => parent.get key
  | none => none

/-- Model of `VariableSet::stack`: push the local frame onto the stack; the
new local frame is empty or a copy of the old one. -/
def VariableSet.stack (self : VariableSet) (mode : StackMode) : VariableSet :=
  { stackedVars := self.stackedVars ++ [self.localVars]
    localVars :=
      match mode with
      | .emptyLocals => VariableMap.empty
      | .copyLocals => self.localVars }

/-- Model of `VariableSet::insert`: mutates the local frame only. -/
def VariableSet.insert (self : VariableSet) (key : String) (value : Json) :
    VariableSet :=
  { self with localVars := self.localVars.insert key value }

/-- Modelled from the spec: `core/token.rs` is not under `src/` (only the
sibling revision `src/token.rs` is); per section 4.A the core expander runs
the same element algorithm with lookup through the `VariableSet`. -/
def VariableSet.evaluateTokens (self : VariableSet) (input : String) :
    Except DigError Json :=
  evaluateTokensWith (fun k => self.get k) input

/-- Modelled from the spec: `evaluate_tokens_to_string` of the missing
`core/token.rs`; expansion must produce a JSON string, anything else is a
coercion error naming the field being expanded.  No claim depends on the
non-string branch. -/
def VariableSet.evaluateTokensToString (self : VariableSet) (label : String)
    (input : String) : Except DigError String :=
  match self.evaluateTokens input with
  | .error e => .error e
  | .ok (.str s) => .ok s
  | .ok other =>
      .error ("Token '" ++ label ++ "' did not evaluate to a string: " ++
        other.render)

/-- Model of `str::trim` on a string. -/
def strTrim (s : String) : String :=
  String.mk (trimChars s.data)

/-- Terminal colours used by the runner's logging (`colored`):
plain `println!`, blue task logs, red error logs, and the dim
`truecolor(100,100,100)` used for captured stdout. -/
inductive Color where
  | plain
  | blue
  | red
  | dim
deriving DecidableEq, Inhabited

/-- Observable effects of an evaluation: terminal output lines and spawned
external processes. -/
inductive Event where
  | print (text : String) (color : Color)
  | spawn (program : String) (args : List String) (env : Option EnvMap)
      (dir : Option String)
deriving DecidableEq, Inhabited

/-- Output of a finished external process (`async_process::Output`):
captured stdout and stderr plus the exit code. -/
structure ProcessOutput where
  stdout : String
  stderr : String
  code : Int
deriving DecidableEq, Inhabited

/-- Oracles for the effectful outside world: process execution, the
filesystem, the clock, and JSON parsing (all outside the core per section 1
of the specification).  The pure control flow around them is translated
from the source. -/
structure World where
  runProcess : String → List String → Option EnvMap → Option String →
    Except DigError ProcessOutput
  isDir : String → Bool
  mtimeOf : String → Option Nat
  now : Nat
  jsonParse : String → Option Json

/-- The forcing transition of the specification's table in section 4.C,
written independently of `child_context` so the two can be compared. -/
def specForcingTransition (parent : ForcingContext)
    (b : ForcingBehaviour) : ForcingContext :=
  match parent with
  | .everythingForced => .everythingForced
  | .forcedAsMainTask => .explicitlyForced
  | .explicitlyForced =>
      match b with
      | .always => .explicitlyForced
      | .inherit => .explicitlyForced
      | .never => .notForced
  | .parentIsForced =>
      match b with
      | .always => .explicitlyForced
      | .inherit => .parentIsForced
      | .never => .notForced
  | .notForced =>
      match b with
      | .always => .explicitlyForced
      | .inherit => .notForced
      | .never => .notForced

/-- C5: forcing is monotone across context derivation, and `child_context`
realises the specification's 5×3 transition table.  If a context is forced
(`is_forced()` true) then every child derived with behaviour Always or
Inherit is forced as well; and for every parent forcing value and child
behaviour, the child's forcing is the one given by the table. -/
theorem forcing_monotone_and_transition_table :
    (∀ (c : RunContext) (b : ForcingBehaviour),
      c.isForced = true → (b = .always ∨ b = .inherit) →
        (c.childContext b).isForced = true) ∧
    (∀ (c : RunContext) (b : ForcingBehaviour),
      (c.childContext b).forcing = specForcingTransition c.forcing b) := by
  constructor
  · intro c b hforced hb
    cases hc : c.forcing <;>
      simp [RunContext.isForced, hc] at hforced <;>
      rcases hb with hb | hb <;>
      subst hb <;>
      simp [RunContext.childContext, RunContext.isForced, hc]
  · intro c b
    cases hc : c.forcing <;> cases b <;>
      simp [RunContext.childContext, specForcingTransition, hc]

/-- Closed witness for the hypotheses of the C5 theorem, applying it to the
explicitly-forced context with the Inherit behaviour. -/
theorem forcing_monotone_witness :
    ({ RunContext.default with
        forcing := .explicitlyForced }.childContext .inherit).isForced
      = true :=
  forcing_monotone_and_transition_table.1
    { RunContext.default with forcing := .explicitlyForced }
    .inherit (by decide) (Or.inr rfl)

/-- Model of `core/gate.rs::RunGateTestConfig`: the external-test gate with
its (never consulted) allow and deny lists. -/
structure RunGateTestConfig where
  test : String
  allow : Option (List Nat)
  deny : Option (List Nat)
deriving DecidableEq, Inhabited

/-- Model of `core/gate.rs::RunGate`. -/
inductive RunGate where
  | internal (entry : String)
  | test (config : RunGateTestConfig)
deriving DecidableEq, Inhabited

/-- Model of `core/gate.rs::RunGates`. -/
abbrev RunGates := List RunGate

/-- Model of `core/gate.rs::RunGateNonZeroExit`. -/
structure RunGateNonZeroExit where
  code : Int
  statement : String
deriving DecidableEq, Inhabited

/-- Split a character list at the first `=`, the effect of
`splitn(2, '=')` in `RunGate::evaluate_internal`. -/
def splitFirstEq : List Char → Option (List Char × List Char)
  | [] => none
  | '=' :: rest => some ([], rest)
  | c :: rest =>
      match splitFirstEq rest with
      | none => none
      | some (l, r) => some (c :: l, r)

/-- Model of `RunGateTestConfig::evaluate` (core/gate.rs lines 18-49):
expand the test statement, spawn `bash -c "test <statement>"` under the
context's env and dir overlays, and pass exactly on exit code zero.  The
`allow` and `deny` fields are not consulted, as in the source. -/
def RunGateTestConfig.evaluate (w : World) (self : RunGateTestConfig)
    (vars : VariableSet) (context : RunContext) :
    List Event × Except DigError (Option RunGateNonZeroExit) :=
  match vars.evaluateTokensToString "test-gate" self.test with
  | .error e => ([], .error e)
  | .ok statement =>
      let args := ["-c", "test " ++ statement]
      let ev := Event.spawn "bash" args context.env context.dir
      match w.runProcess "bash" args context.env context.dir with
      | .error e => ([ev], .error e)
      | .ok output =>
          if output.code = 0 then ([ev], .ok none)
          else
            ([ev], .ok (some { code := output.code, statement := statement }))

/-- Model of `RunGate::evaluate_internal` (core/gate.rs lines 77-103),
effects in source order: split at the first `=` into at most two pieces, pop
and expand the right-hand side, pop and expand the left-hand side (default
boolean true), then the (unreachable) more-than-one-`=` check, then strict
JSON comparison. -/
def RunGate.evaluateInternal (entry : String) (vars : VariableSet) :
    Except DigError (Option RunGateNonZeroExit) :=
  let entrySplit : List String :=
    match splitFirstEq entry.data with
    | none => [entry]
    | some (l, r) => [String.mk l, String.mk r]
  match entrySplit.getLast? with
  | none => .error "An If-statement should have at least one element"
  | some rhsRaw =>
      let entrySplit1 := entrySplit.dropLast
      match vars.evaluateTokens (strTrim rhsRaw) with
      | .error e => .error e
      | .ok rhs =>
          let lhsResult :=
            match entrySplit1.getLast? with
            | some lhsRaw => vars.evaluateTokens (strTrim lhsRaw)
            | none => .ok (.bool true)
          match lhsResult with
          | .error e => .error e
          | .ok lhs =>
              let entrySplit2 :=
                match entrySplit1.getLast? with
                | some _ => entrySplit1.dropLast
                | none => entrySplit1
              if entrySplit2 ≠ [] then
                .error
                  "An If-Statement should only be splittable along one '=' character"
              else if Json.beq lhs rhs then .ok none
              else
                .ok (some { code := 1
                            statement := lhs.render ++ " = " ++ rhs.render })

/-- Model of `RunGate::evaluate`. -/
def RunGate.evaluate (w : World) (self : RunGate) (vars : VariableSet)
    (context : RunContext) :
    List Event × Except DigError (Option RunGateNonZeroExit) :=
  match self with
  | .internal entry => ([], RunGate.evaluateInternal entry vars)
  | .test config => config.evaluate w vars context

/-- Walk of `core/gate.rs::test_run_gates` from a given index: evaluate each
gate in order, stopping at the first failure. -/
def testRunGatesFrom (w : World) (vars : VariableSet) (context : RunContext) :
    Nat → RunGates → List Event × Except DigError (Option (Nat × RunGateNonZeroExit))
  | _, [] => ([], .ok none)
  | i, g :: rest =>
      let (ev, r) := g.evaluate w vars context
      match r with
      | .error e => (ev, .error e)
      | .ok (some exit) => (ev, .ok (some (i, exit)))
      | .ok none =>
          let (ev2, r2) := testRunGatesFrom w vars context (i + 1) rest
          (ev ++ ev2, r2)

/-- Model of `core/gate.rs::test_run_gates`: an absent gate list passes;
otherwise the first failing gate is returned with its index. -/
def testRunGates (w : World) (gates : Option RunGates) (vars : VariableSet)
    (context : RunContext) :
    List Event × Except DigError (Option (Nat × RunGateNonZeroExit)) :=
  match gates with
  | none => ([], .ok none)
  | some gs => testRunGatesFrom w vars context 0 gs

/-- C7: a claim the code contradicts.  The internal gate `"a=b=c"` has two
`=` characters, yet `evaluate_internal` does not fail: `splitn(2, '=')`
yields at most two pieces, both are popped, and the more-than-one-`=` check
is left looking at an always-empty vector, so the input is evaluated as the
comparison of `"a"` against `"b=c"` (a failing gate, not a syntax error). -/
theorem gate_double_equals_not_an_error :
    RunGate.evaluateInternal "a=b=c" VariableSet.new =
      .ok (some { code := 1, statement := "\"a\" = \"b=c\"" }) := rfl

/-- C10: the outcome of an external test gate is independent of its allow
and deny lists — two configurations sharing the test string evaluate
identically (same events, same result) — and the gate passes exactly when
the statement expands and the spawned `test` command exits with code 0. -/
theorem test_gate_ignores_allow_deny (w : World) (t : String)
    (a1 d1 a2 d2 : Option (List Nat)) (vars : VariableSet)
    (context : RunContext) :
    (RunGateTestConfig.evaluate w { test := t, allow := a1, deny := d1 }
        vars context =
      RunGateTestConfig.evaluate w { test := t, allow := a2, deny := d2 }
        vars context) ∧
    ((RunGateTestConfig.evaluate w { test := t, allow := a1, deny := d1 }
        vars context).2 = .ok none ↔
      ∃ stmt out,
        vars.evaluateTokensToString "test-gate" t = .ok stmt ∧
        w.runProcess "bash" ["-c", "test " ++ stmt] context.env context.dir =
          .ok out ∧
        out.code = 0) := by
  constructor
  · rfl
  · constructor
    · intro h
      unfold RunGateTestConfig.evaluate at h
      cases he : vars.evaluateTokensToString "test-gate" t with
      | error e => rw [he] at h; simp at h
      | ok stmt =>
          rw [he] at h
          dsimp only at h
          cases hp : w.runProcess "bash" ["-c", "test " ++ stmt] context.env
              context.dir with
          | error e => rw [hp] at h; simp at h
          | ok out =>
              rw [hp] at h
              by_cases hc : out.code = 0
              · exact ⟨stmt, out, rfl, hp, hc⟩
              · simp [hc] at h
    · rintro ⟨stmt, out, he, hp, hc⟩
      unfold RunGateTestConfig.evaluate
      rw [he]
      dsimp only
      rw [hp]
      simp [hc]

/-- Model of `core/step/basic_step.rs::RawCommandEntry`. -/
inductive RawCommandEntry where
  | none
  | single (cmd : String)
  | many (cmds : List String)
deriving DecidableEq, Inhabited

/-- Model of `core/step/basic_step.rs::BasicStep` (the generic process
step).  The Rust field `r#if` is named `ifGates`. -/
structure BasicStep where
  cmd : RawCommandEntry
  entry : String
  env : Option EnvMap
  dir : Option String
  ifGates : Option RunGates
  store : Option String
  silent : Bool
deriving DecidableEq, Inhabited

/-- Model of `core/step/bash_step.rs::BashStep`. -/
structure BashStep where
  executable : String
  bash : String
  env : Option EnvMap
  dir : Option String
  ifGates : Option RunGates
  store : Option String
  silent : Bool
deriving DecidableEq, Inhabited

/-- Model of `BashStep::new`. -/
def BashStep.new (command : String) : BashStep :=
  { executable := "/bin/bash"
    bash := command
    env := none
    dir := none
    ifGates := none
    store := none
    silent := false }

/-- Model of `core/step/python_step.rs::PythonStepType`. -/
inductive PythonStepType where
  | inline
  | script
deriving DecidableEq, Inhabited

/-- Model of `PythonStepTypeCondaConfig`. -/
structure PythonStepTypeCondaConfig where
  conda : String
  type : PythonStepType
deriving DecidableEq, Inhabited

/-- Model of `PythonStepTypeVenvConfig`. -/
structure PythonStepTypeVenvConfig where
  venv : String
  type : PythonStepType
deriving DecidableEq, Inhabited

/-- Model of `PythonStepTypeConfig`. -/
inductive PythonStepTypeConfig where
  | native (t : PythonStepType)
  | conda (c : PythonStepTypeCondaConfig)
  | venv (v : PythonStepTypeVenvConfig)
deriving DecidableEq, Inhabited

/-- Model of `core/step/python_step.rs::PythonStep`.  Its `r#if` field holds
plain statement strings in the source. -/
structure PythonStep where
  executable : String
  py : String
  env : Option EnvMap
  dir : Option String
  ifGates : Option (List String)
  store : Option String
  type : PythonStepTypeConfig
  silent : Bool
deriving DecidableEq, Inhabited

/-- Model of `core/step/task_step.rs::PreparedTaskStep`: a sub-task spawn
descriptor. -/
structure PreparedTaskStep where
  task : String
  vars : VariableSet
  context : RunContext
deriving Inhabited

/-- Model of `core/step/common.rs::StepEvaluationResult`. -/
inductive StepEvaluationResult where
  | skippedDueToIfStatement (idx : Nat) (statement : String)
  | completed (output : String)
  | submitTasks (tasks : List PreparedTaskStep)
deriving Inhabited

/-- Model of `RunContext::update_env`: expand each env key and value via
tokens into a fresh map, then merge into the existing overlay (additions
shadow). -/
def RunContext.updateEnv (self : RunContext) (env : Option EnvMap)
    (vars : VariableSet) : Except DigError RunContext := do
  let envExpanded : Option EnvMap ←
    match env with
    | Option.none => pure Option.none
    | some envmap => do
        let expanded ← envmap.foldlM
          (fun (acc : EnvMap) (entry : String × String) => do
            let key ← vars.evaluateTokensToString "env-key" entry.1
            let value ← vars.evaluateTokensToString "env-value" entry.2
            pure (acc.insert key value)) []
        pure (some expanded)
  match self.env with
  | Option.none => pure { self with env := envExpanded }
  | some selfEnv =>
      match envExpanded with
      | Option.none => pure self
      | some m =>
          pure { self with
            env := some (m.foldl (fun acc entry => acc.insert entry.1 entry.2)
              selfEnv) }

/-- Model of `RunContext::update_dir`: expand the directory via tokens and
require that it names an existing directory. -/
def RunContext.updateDir (w : World) (self : RunContext)
    (dir : Option String) (vars : VariableSet) : Except DigError RunContext :=
  match dir with
  | Option.none => .ok self
  | some specifiedDir => do
      let s ← vars.evaluateTokensToString "dir" specifiedDir
      if w.isDir s then
        pure { self with dir := some s }
      else
        throw ("Invalid directory '" ++ s ++ "'")

/-- Model of `RunContext::update` (core/run_context.rs lines 97-109): env
merge, dir check, and the OR of the silent flag. -/
def RunContext.update (w : World) (self : RunContext) (env : Option EnvMap)
    (dir : Option String) (silent : Bool) (vars : VariableSet) :
    Except DigError RunContext := do
  let c1 ← self.updateEnv env vars
  let c2 ← RunContext.updateDir w c1 dir vars
  pure { c2 with silent := c2.silent || silent }

/-- Split a character list at every space, keeping empty pieces (the
semantics of Rust `str::split(' ')`). -/
def splitOnSpace : List Char → List (List Char)
  | [] => [[]]
  | ' ' :: rest => [] :: splitOnSpace rest
  | c :: rest =>
      match splitOnSpace rest with
      | [] => [[c]]
      | piece :: more => (c :: piece) :: more

/-- Model of `BasicStep::build_command`: expand the entry, split it on ASCII
spaces into program and initial argv, then append the expanded user command
element(s); also the joined string representation used for logging. -/
def BasicStep.buildCommand (self : BasicStep) (vars : VariableSet) :
    Except DigError (String × List String × String) := do
  let entry ← vars.evaluateTokensToString "command" self.entry
  match (splitOnSpace entry.data).map String.mk with
  | [] => throw "Entrypoint should be splittable"
  | trueEntry :: initialCmd =>
      let stringRep := strTrim trueEntry :: initialCmd.map strTrim
      match self.cmd with
      | .none =>
          pure (trueEntry, initialCmd, " ".intercalate stringRep)
      | .single t => do
          let userCommand ← vars.evaluateTokensToString "command" t
          pure (trueEntry, initialCmd ++ [userCommand],
            " ".intercalate (stringRep ++ [userCommand]))
      | .many tokens => do
          let userCommandElements ←
            tokens.mapM (vars.evaluateTokensToString "command")
          pure (trueEntry, initialCmd ++ userCommandElements,
            " ".intercalate (stringRep ++ userCommandElements))

/-- Model of `BasicStep::evaluate` (core/step/basic_step.rs lines 122-183):
update the context, test the if-gates, build and spawn the command, emit the
trimmed stdout (dim) and stderr (red) whenever they are non-empty, and
complete with the trimmed stdout on exit code zero or fail with the stderr
text otherwise. -/
def BasicStep.evaluate (w : World) (self : BasicStep) (stepI : Nat)
    (vars : VariableSet) (context : RunContext) :
    List Event × Except DigError StepEvaluationResult :=
  match RunContext.update w context self.env self.dir self.silent vars with
  | .error e => ([], .error e)
  | .ok context =>
      let (ev1, gateRes) := testRunGates w self.ifGates vars context
      match gateRes with
      | .error e => (ev1, .error e)
      | .ok (some (stmtId, exit)) =>
          (ev1 ++
            [Event.print ("STEP:" ++ toString stepI ++
              " -- Skipped due to if statement #" ++ toString stmtId ++
              ", '" ++ exit.statement ++ "'") .plain],
            .ok (.skippedDueToIfStatement stmtId exit.statement))
      | .ok Option.none =>
          match self.buildCommand vars with
          | .error e => (ev1, .error e)
          | .ok (program, args, stringRep) =>
              let ev2 :=
                [Event.print ("STEP:" ++ toString stepI ++ " -- " ++ stringRep)
                  .plain,
                 Event.spawn program args context.env context.dir]
              match w.runProcess program args context.env context.dir with
              | .error e => (ev1 ++ ev2, .error e)
              | .ok output =>
                  let stdout := strTrim output.stdout
                  let ev3 :=
                    if stdout ≠ "" then [Event.print stdout .dim] else []
                  let stderr := strTrim output.stderr
                  let ev4 :=
                    if stderr ≠ "" then [Event.print stderr .red] else []
                  if output.code = 0 then
                    (ev1 ++ ev2 ++ ev3 ++ ev4, .ok (.completed (strTrim stdout)))
                  else
                    (ev1 ++ ev2 ++ ev3 ++ ev4, .error stderr)

/-- Model of `BashStep::evaluate`: desugar into a `BasicStep` whose entry is
the executable plus `-c` and whose command is the script text. -/
def BashStep.evaluate (w : World) (self : BashStep) (stepI : Nat)
    (vars : VariableSet) (context : RunContext) :
    List Event × Except DigError StepEvaluationResult :=
  BasicStep.evaluate w
    { entry := self.executable ++ " -c"
      cmd := .single self.bash
      env := self.env
      dir := self.dir
      ifGates := self.ifGates
      store := self.store
      silent := self.silent } stepI vars context

/-- Model of `PythonStep::evaluate`: desugar into a `BasicStep` according to
the native / conda / venv execution mode (`-c` added in inline mode only);
the plain-string if-gates become internal gates. -/
def PythonStep.evaluate (w : World) (self : PythonStep) (stepI : Nat)
    (vars : VariableSet) (context : RunContext) :
    List Event × Except DigError StepEvaluationResult :=
  let entryCmd : String × RawCommandEntry :=
    match self.type with
    | .native t =>
        match t with
        | .inline => (self.executable ++ " -c", .single self.py)
        | .script => (self.executable, .single self.py)
    | .conda c =>
        let cmdBase := ["run", "-n", c.conda, self.executable]
        match c.type with
        | .inline => ("conda", .many (cmdBase ++ ["-c", self.py]))
        | .script => ("conda", .many (cmdBase ++ [self.py]))
    | .venv v =>
        let cmdHead := "source " ++ v.venv ++ "/bin/activate && " ++
          self.executable
        match v.type with
        | .inline => ("bash -c", .single (cmdHead ++ " -c " ++ self.py))
        | .script => ("bash -c", .single (cmdHead ++ " " ++ self.py))
  BasicStep.evaluate w
    { entry := entryCmd.1
      cmd := entryCmd.2
      env := self.env
      dir := self.dir
      ifGates := self.ifGates.map (List.map RunGate.internal)
      store := self.store
      silent := self.silent } stepI vars context

/-- Model of `core/step/common.rs::CommandConfig`. -/
inductive CommandConfig where
  | basic (b : BasicStep)
  | bash (b : BashStep)
  | python (p : PythonStep)
deriving DecidableEq, Inhabited

/-- Model of `CommandConfig::get_store`. -/
def CommandConfig.getStore : CommandConfig → Option String
  | .basic b => b.store
  | .bash b => b.store
  | .python p => p.store

/-- Model of `CommandConfig::evaluate`: dispatch on the variant. -/
def CommandConfig.evaluate (w : World) (self : CommandConfig) (stepI : Nat)
    (vars : VariableSet) (context : RunContext) :
    List Event × Except DigError StepEvaluationResult :=
  match self with
  | .basic b => b.evaluate w stepI vars context
  | .bash b => b.evaluate w stepI vars context
  | .python p => p.evaluate w stepI vars context

mutual

/-- Modelled from the spec: recursive token expansion over composite JSON
values (the `TokenedJsonValue` impl of the missing `core/token.rs`; its
sibling revision is in `src/token.rs`): object keys must expand to strings,
object values and array elements are expanded recursively, strings are
expanded, other scalars pass through. -/
def Json.evaluateTokens (self : Json) (vars : VariableSet) :
    Except DigError Json :=
  match self with
  | .obj valmap =>
      match Json.evaluateTokensFields valmap vars with
      | .error e => .error e
      | .ok fields => .ok (.obj fields)
  | .arr valarr =>
      match Json.evaluateTokensElems valarr vars with
      | .error e => .error e
      | .ok elems => .ok (.arr elems)
  | .str valstr => vars.evaluateTokens valstr
  | other => .ok other

/-- Recursive expansion of JSON object fields: keys expand as strings. -/
def Json.evaluateTokensFields (fields : List (String × Json))
    (vars : VariableSet) : Except DigError (List (String × Json)) :=
  match fields with
  | [] => .ok []
  | (key, val) :: rest =>
      match vars.evaluateTokens key with
      | .error e => .error e
      | .ok (.str detokenedKey) =>
          match Json.evaluateTokens val vars with
          | .error e => .error e
          | .ok detokenedValue =>
              match Json.evaluateTokensFields rest vars with
              | .error e => .error e
              | .ok restFields => .ok ((detokenedKey, detokenedValue) :: restFields)
      | .ok other =>
          .error ("Map keys should always map to strings: '" ++ key ++
            "' became '" ++ other.render ++ "'")

/-- Recursive expansion of JSON array elements. -/
def Json.evaluateTokensElems (elems : List Json) (vars : VariableSet) :
    Except DigError (List Json) :=
  match elems with
  | [] => .ok []
  | val :: rest =>
      match Json.evaluateTokens val vars with
      | .error e => .error e
      | .ok v =>
          match Json.evaluateTokensElems rest vars with
          | .error e => .error e
          | .ok vs => .ok (v :: vs)

end

/-- Model of `core/vars.rs::RawVariable`: a JSON literal with embedded
tokens, or a command-producing step. -/
inductive RawVariable where
  | executable (cmd : CommandConfig)
  | json (value : Json)
deriving Inhabited

/-- Model of `core/vars.rs::RawVariableMap` (an `IndexMap`: association
list in insertion order). -/
abbrev RawVariableMap := List (String × RawVariable)

/-- Model of `RawVariable::evaluate`: expand a JSON literal, or run the
command and parse its completed output as JSON when possible (else keep the
raw string). -/
def RawVariable.evaluate (w : World) (self : RawVariable)
    (vars : VariableSet) (context : RunContext) :
    List Event × Except DigError Json :=
  match self with
  | .json jsonValue => ([], jsonValue.evaluateTokens vars)
  | .executable command =>
      let (ev, r) := command.evaluate w 0 vars context
      match r with
      | .error e => (ev, .error e)
      | .ok (.completed strVal) =>
          (ev, .ok (match w.jsonParse strVal with
            | some jsonVal => jsonVal
            | Option.none => .str strVal))
      | .ok _ => (ev, .error "Command did not result in an output")

/-- Loop of `VariableSet::stack_raw_variables` over the raw entries in
insertion order, threading the partially built environment. -/
def stackRawVariablesGo (w : World) (context : RunContext)
    (stackMode : StackMode) :
    List (String × RawVariable) → VariableSet →
      List Event × Except DigError VariableSet
  | [], outputVars => ([], .ok outputVars)
  | (keytoken, rawvalue) :: rest, outputVars =>
      match outputVars.getFromParent keytoken with
      | some value =>
          match stackMode with
          | .emptyLocals =>
              stackRawVariablesGo w context stackMode rest
                (outputVars.insert keytoken value)
          | .copyLocals =>
              stackRawVariablesGo w context stackMode rest outputVars
      | Option.none =>
          match outputVars.evaluateTokensToString "variable key" keytoken with
          | .error e => ([], .error e)
          | .ok key =>
              let (ev, r) := rawvalue.evaluate w outputVars context
              match r with
              | .error e => (ev, .error e)
              | .ok value =>
                  let (ev2, r2) := stackRawVariablesGo w context stackMode rest
                    (outputVars.insert key value)
                  (ev ++ ev2, r2)

/-- Model of `VariableSet::stack_raw_variables` (core/vars.rs lines
92-126): push a frame, then evaluate the raw entries in insertion order;
in EmptyLocals mode a key already present in the parent frame is inherited
unchanged, in CopyLocals mode it is skipped (already copied). -/
def VariableSet.stackRawVariables (w : World) (self : VariableSet)
    (rawVars : RawVariableMap) (stackMode : StackMode)
    (context : RunContext) : List Event × Except DigError VariableSet :=
  stackRawVariablesGo w context stackMode rawVars (self.stack stackMode)

/-- Model of `core/step/task_step.rs::TaskStepConfig`.  The `over` mapping
is embedded as an association list (the source's `HashMap` iterates in an
arbitrary order). -/
structure TaskStepConfig where
  task : String
  vars : Option RawVariableMap
  env : Option EnvMap
  dir : Option String
  ifGates : Option RunGates
  over : Option (List (String × String))
  silent : Bool
deriving Inhabited

/-- The `STEP:<i> -- <message>` log line of `TaskStepConfig::log`. -/
def taskStepLog (stepI : Nat) (message : String) : Event :=
  .print ("STEP:" ++ toString stepI ++ " -- " ++ message) .plain

mutual

/-- Model of `TaskStepConfig::_prepare_subtasks` (core/step/task_step.rs
lines 67-127): with no remaining `over` pairs, emit one descriptor (logging
it); otherwise pop the last pair, expand its source expression (an array
iterates its elements, an object fails, any other value is wrapped
singleton) and recurse on the remaining pairs for each element. -/
def prepareSubtasksGo (self : TaskStepConfig) (stepI : Nat)
    (vars : VariableSet) (context : RunContext) :
    Option (List (String × String)) →
      List Event × Except DigError (List PreparedTaskStep)
  | Option.none =>
      let task : PreparedTaskStep :=
        { task := self.task, vars := vars, context := context }
      ([taskStepLog stepI ("Queueing Task " ++ task.task ++ " - '" ++
          (Json.obj task.vars.localVars).render ++ "'")],
        .ok [task])
  | some mapVars =>
      match h : mapVars.getLast? with
      | Option.none => prepareSubtasksGo self stepI vars context Option.none
      | some (targetKey, sourceKey) =>
          match vars.evaluateTokens sourceKey with
          | .error e => ([], .error e)
          | .ok (.arr x) =>
              prepareSubtasksLoop self stepI context targetKey
                mapVars.dropLast vars x
          | .ok (.obj _) =>
              ([], .error ("Unable to map over object variable '" ++
                sourceKey ++ "'"))
          | .ok other =>
              prepareSubtasksLoop self stepI context targetKey
                mapVars.dropLast vars [other]
  termination_by mapVars => (match mapVars with
    | Option.none => 0
    | some l => 2 * l.length + 2, 0)
  decreasing_by
  · simp [Prod.lex_iff]
  · simp [Prod.lex_iff]
    have hne : mapVars ≠ [] := by
      intro hnil
      rw [hnil] at h
      simp at h
    have : mapVars.dropLast.length = mapVars.length - 1 :=
      List.length_dropLast mapVars
    have : 0 < mapVars.length := List.length_pos.mpr hne
    omega
  · simp [Prod.lex_iff]
    have hne : mapVars ≠ [] := by
      intro hnil
      rw [hnil] at h
      simp at h
    have : mapVars.dropLast.length = mapVars.length - 1 :=
      List.length_dropLast mapVars
    have : 0 < mapVars.length := List.length_pos.mpr hne
    omega

/-- Element loop inside `_prepare_subtasks`: for each element of the
expanded source, bind it to the target key in a fresh copy of the variables
and recurse with the remaining pairs, concatenating the results. -/
def prepareSubtasksLoop (self : TaskStepConfig) (stepI : Nat)
    (context : RunContext) (targetKey : String)
    (restPairs : List (String × String)) (vars : VariableSet) :
    List Json → List Event × Except DigError (List PreparedTaskStep)
  | [] => ([], .ok [])
  | sourceValue :: restValues =>
      let newStepVars := vars.insert targetKey sourceValue
      let (ev, r) :=
        prepareSubtasksGo self stepI newStepVars context (some restPairs)
      match r with
      | .error e => (ev, .error e)
      | .ok newTasks =>
          let (ev2, r2) := prepareSubtasksLoop self stepI context targetKey
            restPairs vars restValues
          match r2 with
          | .error e => (ev ++ ev2, .error e)
          | .ok moreTasks => (ev ++ ev2, .ok (newTasks ++ moreTasks))
  termination_by values => (2 * restPairs.length + 3, values.length)
  decreasing_by
  · simp [Prod.lex_iff]
  · simp [Prod.lex_iff]

end

/-- Model of `TaskStepConfig::prepare_subtasks` (core/step/task_step.rs
lines 129-150): run the fan-out recursion over the `over` pairs (or none)
and wrap the descriptors in `SubmitTasks`. -/
def TaskStepConfig.prepareSubtasks (self : TaskStepConfig) (stepI : Nat)
    (vars : VariableSet) (context : RunContext) :
    List Event × Except DigError StepEvaluationResult :=
  match self.over with
  | Option.none =>
      let (ev, r) := prepareSubtasksGo self stepI vars context Option.none
      match r with
      | .error e => (ev, .error e)
      | .ok tasks => (ev, .ok (.submitTasks tasks))
  | some mapOver =>
      let (ev, r) := prepareSubtasksGo self stepI vars context (some mapOver)
      match r with
      | .error e => (ev, .error e)
      | .ok tasks => (ev, .ok (.submitTasks tasks))

/-- Model of `TaskStepConfig::evaluate` (core/step/task_step.rs lines
157-188): stack the step's vars (CopyLocals bare stack when absent,
EmptyLocals raw stacking when present), update the context, test the
if-gates, and on pass prepare the sub-task descriptors. -/
def TaskStepConfig.evaluate (w : World) (self : TaskStepConfig)
    (stepI : Nat) (vars : VariableSet) (context : RunContext) :
    List Event × Except DigError StepEvaluationResult :=
  let stacked : List Event × Except DigError VariableSet :=
    match self.vars with
    | Option.none => ([], .ok (vars.stack .copyLocals))
    | some rawVars => vars.stackRawVariables w rawVars .emptyLocals context
  let (ev0, varsRes) := stacked
  match varsRes with
  | .error e => (ev0, .error e)
  | .ok vars =>
      match RunContext.update w context self.env self.dir self.silent vars with
      | .error e => (ev0, .error e)
      | .ok context =>
          let (ev1, gateRes) := testRunGates w self.ifGates vars context
          match gateRes with
          | .error e => (ev0 ++ ev1, .error e)
          | .ok (some (id, exit)) =>
              (ev0 ++ ev1 ++
                [taskStepLog stepI ("Skipped due to if statement #" ++
                  toString id ++ ", '" ++ exit.statement ++ "'")],
                .ok (.skippedDueToIfStatement id exit.statement))
          | .ok Option.none =>
              let (ev2, r) := self.prepareSubtasks stepI vars context
              (ev0 ++ ev1 ++ ev2, r)

/-- Model of `core/step/common.rs::SingularStepConfig`. -/
inductive SingularStepConfig where
  | simple (cmd : String)
  | config (c : CommandConfig)
  | task (t : TaskStepConfig)
deriving Inhabited

/-- Model of `SingularStepConfig::get_store`. -/
def SingularStepConfig.getStore : SingularStepConfig → Option String
  | .simple _ => Option.none
  | .config c => c.getStore
  | .task _ => Option.none

/-- Model of `SingularStepConfig::evaluate`: a bare string desugars into a
bash step. -/
def SingularStepConfig.evaluate (w : World) (self : SingularStepConfig)
    (stepI : Nat) (vars : VariableSet) (context : RunContext) :
    List Event × Except DigError StepEvaluationResult :=
  match self with
  | .simple cmd => (BashStep.new cmd).evaluate w stepI vars context
  | .config c => c.evaluate w stepI vars context
  | .task t => t.evaluate w stepI vars context

/-- Model of `core/step/parallel_step.rs::ParallelStepConfig`. -/
structure ParallelStepConfig where
  parallel : List SingularStepConfig
deriving Inhabited

/-- Scan of a parallel group's joined outcomes: the first error aborts,
otherwise the submitted-task descriptor lists are flattened. -/
def parallelCollect :
    List (Except DigError StepEvaluationResult) →
      Except DigError (List PreparedTaskStep)
  | [] => .ok []
  | outcome :: rest =>
      match outcome with
      | .error e => .error e
      | .ok (.submitTasks tasks) =>
          match parallelCollect rest with
          | .error e => .error e
          | .ok more => .ok (tasks ++ more)
      | .ok _ =>
          match parallelCollect rest with
          | .error e => .error e
          | .ok more => .ok more

/-- Model of `ParallelStepConfig::evaluate`: evaluate every child (all run
to completion; the cooperative interleaving is modelled in submission
order), abort on the first error, flatten any submitted descriptors, and
yield an empty completion when there are none. -/
def ParallelStepConfig.evaluate (w : World) (self : ParallelStepConfig)
    (stepI : Nat) (vars : VariableSet) (context : RunContext) :
    List Event × Except DigError StepEvaluationResult :=
  let outcomes := self.parallel.map
    (fun step => step.evaluate w stepI vars context)
  let ev := (outcomes.map Prod.fst).flatten
  match parallelCollect (outcomes.map Prod.snd) with
  | .error e => (ev, .error e)
  | .ok [] => (ev, .ok (.completed ""))
  | .ok output => (ev, .ok (.submitTasks output))

/-- Model of `core/step/common.rs::StepConfig`. -/
inductive StepConfig where
  | single (s : SingularStepConfig)
  | parallel (p : ParallelStepConfig)
deriving Inhabited

/-- Model of `StepConfig::get_store` (the parallel variant uses the trait
default, `None`). -/
def StepConfig.getStore : StepConfig → Option String
  | .single s => s.getStore
  | .parallel _ => Option.none

/-- Model of `StepConfig::evaluate`. -/
def StepConfig.evaluate (w : World) (self : StepConfig) (stepI : Nat)
    (vars : VariableSet) (context : RunContext) :
    List Event × Except DigError StepEvaluationResult :=
  match self with
  | .single s => s.evaluate w stepI vars context
  | .parallel p => p.evaluate w stepI vars context

/-- Model of `core/task.rs::TaskConfig`.  The Rust fields `r#if` and
`unless` are the run-if and cancel-if gate lists. -/
structure TaskConfig where
  label : Option String
  presteps : Option (List StepConfig)
  steps : List StepConfig
  poststeps : Option (List StepConfig)
  inputs : Option (List String)
  outputs : Option (List String)
  ifGates : Option RunGates
  unlessGates : Option RunGates
  silent : Bool
  vars : Option RawVariableMap
  forcing : ForcingBehaviour
  env : Option EnvMap
  dir : Option String
deriving Inhabited

/-- Model of `core/config.rs::DigConfig` (tasks as an association list). -/
structure DigConfig where
  version : String
  vars : Option RawVariableMap
  tasks : List (String × TaskConfig)
  env : Option EnvMap
  dir : Option String
deriving Inhabited

/-- Model of `DigConfig::get_task`. -/
def DigConfig.getTask (self : DigConfig) (key : String) :
    Except DigError TaskConfig :=
  match self.tasks.find? (fun p => p.1 == key) with
  | some p => .ok p.2
  | Option.none => .error ("Unknown task '" ++ key ++ "'")

/-- Model of `core/task.rs::TaskEvaluationData`. -/
structure TaskEvaluationData where
  label : String
  vars : VariableSet
  context : RunContext
deriving Inhabited

/-- Model of `core/task.rs::SkippedTask`. -/
structure SkippedTask where
  label : String
  reason : String
deriving DecidableEq, Inhabited

/-- Model of `core/task.rs::CanceledTask`. -/
structure CanceledTask where
  label : String
  reason : String
deriving DecidableEq, Inhabited

/-- The blue `TASK:<label> -- <message>` line of `task_log`. -/
def taskLog (label message : String) : Event :=
  .print ("TASK:" ++ label ++ " -- " ++ message) .blue

/-- The red `TASK:<label> -- <message>` line of `task_log_bad`. -/
def taskLogBad (label message : String) : Event :=
  .print ("TASK:" ++ label ++ " -- " ++ message) .red

/-- Model of `TaskConfig::prepare` (core/task.rs lines 61-89): derive the
child context from the task's forcing behaviour, stack the variables (raw
map when present), apply env/dir/silent overlays, and resolve the label. -/
def TaskConfig.prepare (w : World) (self : TaskConfig)
    (defaultLabel : String) (vars : VariableSet) (stackMode : StackMode)
    (parentContext : RunContext) :
    List Event × Except DigError TaskEvaluationData :=
  let context := parentContext.childContext self.forcing
  let stacked : List Event × Except DigError VariableSet :=
    match self.vars with
    | Option.none => ([], .ok (vars.stack stackMode))
    | some rawVars => vars.stackRawVariables w rawVars stackMode context
  let (ev, varsRes) := stacked
  match varsRes with
  | .error e => (ev, .error e)
  | .ok vars =>
      match RunContext.update w context self.env self.dir self.silent vars with
      | .error e => (ev, .error e)
      | .ok context =>
          let labelRes :=
            match self.label with
            | some val => vars.evaluateTokensToString "label" val
            | Option.none => .ok defaultLabel
          match labelRes with
          | .error e => (ev, .error e)
          | .ok label =>
              (ev, .ok { label := label, vars := vars, context := context })

/-- Model of `TaskConfig::test_cancel` (core/task.rs lines 91-118): no
`unless` list means no cancel; a first-failure among the gates means no
cancel; all gates passing cancels the task. -/
def TaskConfig.testCancel (w : World) (self : TaskConfig)
    (data : TaskEvaluationData) :
    List Event × Except DigError (Option CanceledTask) :=
  match self.unlessGates with
  | Option.none => ([], .ok Option.none)
  | some _ =>
      let (ev, r) := testRunGates w self.unlessGates data.vars data.context
      match r with
      | .error e => (ev, .error e)
      | .ok (some _) => (ev, .ok Option.none)
      | .ok Option.none =>
          (ev, .ok (some { label := data.label
                           reason := "all unless-statements returned true" }))

/-- Model of `TaskConfig::get_latest_input` (core/task.rs lines 175-195):
the maximum over the Unix epoch and the modification times of the expanded
input paths; an inaccessible input is an error. -/
def TaskConfig.getLatestInput (w : World) (self : TaskConfig)
    (vars : VariableSet) : Except DigError Nat :=
  match self.inputs with
  | Option.none => .ok 0
  | some inputs =>
      inputs.foldlM
        (fun (acc : Nat) rawPath => do
          let path ← vars.evaluateTokensToString "input path" rawPath
          match w.mtimeOf path with
          | some t => pure (max acc t)
          | Option.none =>
              throw ("Couldn't access input file '" ++ path ++ "'"))
        0

/-- Model of `TaskConfig::get_earliest_output` (core/task.rs lines
197-213): the minimum over the current time and the modification times of
those expanded output paths that exist. -/
def TaskConfig.getEarliestOutput (w : World) (self : TaskConfig)
    (vars : VariableSet) : Except DigError Nat :=
  match self.outputs with
  | Option.none => .ok w.now
  | some outputs =>
      outputs.foldlM
        (fun (acc : Nat) rawPath => do
          let path ← vars.evaluateTokensToString "output path" rawPath
          match w.mtimeOf path with
          | some t => pure (min acc t)
          | Option.none => pure acc)
        w.now

/-- Model of `TaskConfig::check_skip_state` (core/task.rs lines 146-173):
a failing run-if gate produces its skip reason; otherwise, when `inputs` is
present and the earliest output is strictly newer than the latest input,
the outputs-up-to-date reason (with the source's stray quote) is
produced. -/
def TaskConfig.checkSkipState (w : World) (self : TaskConfig)
    (vars : VariableSet) (context : RunContext) :
    List Event × Except DigError (Option String) :=
  let (ev, r) := testRunGates w self.ifGates vars context
  match r with
  | .error e => (ev, .error e)
  | .ok (some (id, ifExit)) =>
      (ev, .ok (some ("run-if statement " ++ toString id ++
        " returned false: '" ++ ifExit.statement ++ "'")))
  | .ok Option.none =>
      if self.inputs.isSome then
        match self.getLatestInput w vars with
        | .error e => (ev, .error e)
        | .ok latestInput =>
            match self.getEarliestOutput w vars with
            | .error e => (ev, .error e)
            | .ok earliestOutput =>
                if earliestOutput > latestInput then
                  (ev, .ok (some "all outputs are up to date'"))
                else
                  (ev, .ok Option.none)
      else
        (ev, .ok Option.none)

/-- Model of `TaskConfig::test_skip` (core/task.rs lines 120-144): a skip
reason is suppressed when the context is forced. -/
def TaskConfig.testSkip (w : World) (self : TaskConfig)
    (data : TaskEvaluationData) :
    List Event × Except DigError (Option SkippedTask) :=
  let (ev, r) := self.checkSkipState w data.vars data.context
  match r with
  | .error e => (ev, .error e)
  | .ok Option.none => (ev, .ok Option.none)
  | .ok (some reason) =>
      match data.context.isForced with
      | false => (ev, .ok (some { label := data.label, reason := reason }))
      | true => (ev, .ok Option.none)

/-- Scan of the joined subtask outcomes inside `evaluate_steps`: the first
error aborts, captured output vectors are concatenated. -/
def subtaskScan :
    List (Except DigError (Option (List String))) →
      Except DigError (List String)
  | [] => .ok []
  | outcome :: rest =>
      match outcome with
      | .error e => .error e
      | .ok possible =>
          match subtaskScan rest with
          | .error e => .error e
          | .ok more =>
              match possible with
              | some subtaskOutput => .ok (subtaskOutput ++ more)
              | Option.none => .ok more

mutual

/-- Model of `TaskConfig::evaluate` (core/task.rs lines 215-317), fuelled
for the sub-task recursion: test cancel (an error before anything runs),
evaluate pre-steps, test skip, then the main phase (Begin log, main steps,
SUCCESS insertion, post-steps, error precedence, Finished log, optional
output capture). -/
def TaskConfig.evaluate (w : World) (config : DigConfig)
    (captureOutput : Bool) :
    Nat → TaskConfig → TaskEvaluationData →
      List Event × Except DigError (Option (List String))
  | 0, _, _ => ([], .error "recursion limit reached")
  | fuel + 1, self, data =>
      let (evC, cancelRes) := self.testCancel w data
      match cancelRes with
      | .error e => (evC, .error e)
      | .ok (some t) =>
          (evC ++ [taskLog data.label ("Canceled because " ++ t.reason)],
            .error ("Task " ++ data.label ++ " canceled"))
      | .ok Option.none =>
          let (ev, r) := TaskConfig.evaluatePhases w config captureOutput
            fuel self data
          (evC ++ ev, r)
  termination_by fuel => (fuel, 0, 0)
  decreasing_by
  all_goals simp [Prod.lex_iff]

/-- The body of `TaskConfig::evaluate` after the cancel check (core/task.rs
lines 232-255): pre-steps, the skip test, and the main phase.  It reads
only the task's non-`unless` fields. -/
def TaskConfig.evaluatePhases (w : World) (config : DigConfig)
    (captureOutput : Bool) (fuel : Nat) (self : TaskConfig)
    (data : TaskEvaluationData) :
    List Event × Except DigError (Option (List String)) :=
  let prestepPhase :
      List Event × VariableSet × Except DigError (List String) :=
    match self.presteps with
    | some presteps =>
        let (ev, vars2, r) := TaskConfig.evaluateSteps w config
          captureOutput fuel presteps 0 data.vars data.context
        (taskLog data.label "Evaluating Dependencies" :: ev, vars2, r)
    | Option.none => ([], data.vars, .ok [])
  let (evP, vars2, preRes) := prestepPhase
  match preRes with
  | .error e => (evP, .error e)
  | .ok pretestOutputs =>
      let data2 : TaskEvaluationData := { data with vars := vars2 }
      let (evS, skipRes) := self.testSkip w data2
      match skipRes with
      | .error e => (evP ++ evS, .error e)
      | .ok (some t) =>
          match data2.context.isForced with
          | true =>
              let (evM, r) := TaskConfig.evaluateMainPhase w config
                captureOutput fuel self data2 pretestOutputs
              (evP ++ evS ++ [taskLog data2.label "Forced"] ++ evM, r)
          | false =>
              (evP ++ evS ++
                [taskLog data2.label ("Skipped because " ++ t.reason)],
                .ok Option.none)
      | .ok Option.none =>
          let (evM, r) := TaskConfig.evaluateMainPhase w config
            captureOutput fuel self data2 pretestOutputs
          (evP ++ evS ++ evM, r)
  termination_by (fuel, 5, 0)
  decreasing_by
  all_goals simp [Prod.lex_iff]

/-- Continuation of `TaskConfig::evaluate` after the skip test (core/task.rs
lines 257-317): Begin log, the main step loop, SUCCESS insertion, the
post-step loop, the error-precedence match and final capture. -/
def TaskConfig.evaluateMainPhase (w : World) (config : DigConfig)
    (captureOutput : Bool) (fuel : Nat) (self : TaskConfig)
    (data : TaskEvaluationData) (pretestOutputs : List String) :
    List Event × Except DigError (Option (List String)) :=
  let ev0 := [taskLog data.label "Begin"]
  let (ev1, vars3, stepOutputs) := TaskConfig.evaluateSteps w config
    captureOutput fuel self.steps 0 data.vars data.context
  let vars4 :=
    match stepOutputs with
    | .ok _ => vars3.insert "SUCCESS" (.bool true)
    | .error _ => vars3.insert "SUCCESS" (.bool false)
  let postPhase : List Event × VariableSet × Except DigError (List String) :=
    match self.poststeps with
    | some poststeps =>
        let (ev, vars5, r) := TaskConfig.evaluateSteps w config captureOutput
          fuel poststeps 0 vars4 data.context
        (taskLog data.label "Evaluating post-steps" :: ev, vars5, r)
    | Option.none => ([], vars4, .ok [])
  let (ev2, _vars5, poststepOutputs) := postPhase
  match stepOutputs with
  | .ok stepOutputList =>
      match poststepOutputs with
      | .ok poststepOutputList =>
          (ev0 ++ ev1 ++ ev2 ++ [taskLog data.label "Finished"],
            .ok (match captureOutput with
              | true =>
                  some (pretestOutputs ++ stepOutputList ++ poststepOutputList)
              | false => Option.none))
      | .error poststepError =>
          (ev0 ++ ev1 ++ ev2 ++
            [taskLogBad data.label "Task succeeded, but post-steps failed"],
            .error poststepError)
  | .error stepError =>
      match poststepOutputs with
      | .ok _ =>
          (ev0 ++ ev1 ++ ev2 ++ [taskLogBad data.label "Task failed"],
            .error stepError)
      | .error poststepError =>
          (ev0 ++ ev1 ++ ev2 ++
            [taskLogBad data.label ("Task failed:\n" ++ stepError ++
              "\n\nAnd then post-steps failed as well")],
            .error poststepError)
  termination_by (fuel, 4, 0)
  decreasing_by
  all_goals simp [Prod.lex_iff]

/-- Model of `TaskConfig::evaluate_steps` (core/task.rs lines 319-396): for
each step in order, evaluate it; a completion is captured and optionally
stored into the local frame (JSON parse when possible, else the raw
string), a skip records nothing, and submitted sub-tasks are all spawned
and joined with the first error propagated. -/
def TaskConfig.evaluateSteps (w : World) (config : DigConfig)
    (captureOutput : Bool) :
    Nat → List StepConfig → Nat → VariableSet → RunContext →
      List Event × VariableSet × Except DigError (List String)
  | _, [], _, vars, _ => ([], vars, .ok [])
  | fuel, step :: rest, stepI, vars, context =>
      let (ev, r) := step.evaluate w stepI vars context
      match r with
      | .error e => (ev, vars, .error e)
      | .ok stepOutput =>
          let afterStep :
              List Event × VariableSet × Except DigError (List String) :=
            match stepOutput with
            | .submitTasks submittableTasks =>
                let results := TaskConfig.runSubtasks w config captureOutput
                  fuel context submittableTasks
                let ev2 := (results.map Prod.fst).flatten
                match subtaskScan (results.map Prod.snd) with
                | .error e => (ev2, vars, .error e)
                | .ok subOutputs => (ev2, vars, .ok subOutputs)
            | .skippedDueToIfStatement _ _ => ([], vars, .ok [])
            | .completed stepOutputStr =>
                let outputs :=
                  match captureOutput with
                  | true => [stepOutputStr]
                  | false => []
                let stepOutputValue :=
                  match w.jsonParse stepOutputStr with
                  | some jsonVal => jsonVal
                  | Option.none => Json.str stepOutputStr
                let varsAfter :=
                  match step.getStore with
                  | some key => vars.insert key stepOutputValue
                  | Option.none => vars
                ([], varsAfter, .ok outputs)
          let (ev2, varsNext, stepRes) := afterStep
          match stepRes with
          | .error e => (ev ++ ev2, varsNext, .error e)
          | .ok contribution =>
              let (ev3, varsRest, restRes) := TaskConfig.evaluateSteps w
                config captureOutput fuel rest (stepI + 1) varsNext context
              match restRes with
              | .error e => (ev ++ ev2 ++ ev3, varsRest, .error e)
              | .ok restOutputs =>
                  (ev ++ ev2 ++ ev3, varsRest, .ok (contribution ++ restOutputs))
  termination_by fuel steps => (fuel, 3, steps.length)
  decreasing_by
  all_goals simp [Prod.lex_iff]

/-- The `join_all` over submitted sub-tasks inside `evaluate_steps`: every
descriptor is evaluated (all run to completion; the cooperative
interleaving is modelled in submission order). -/
def TaskConfig.runSubtasks (w : World) (config : DigConfig)
    (captureOutput : Bool) :
    Nat → RunContext → List PreparedTaskStep →
      List (List Event × Except DigError (Option (List String)))
  | _, _, [] => []
  | fuel, context, subtask :: rest =>
      TaskConfig.evaluateSubtask w config captureOutput fuel context subtask ::
        TaskConfig.runSubtasks w config captureOutput fuel context rest
  termination_by fuel _ subtasks => (fuel, 2, subtasks.length)
  decreasing_by
  all_goals simp [Prod.lex_iff]

/-- Model of `TaskConfig::evaluate_subtask` (core/task.rs lines 398-421):
resolve the named task in the configuration, prepare it with the
descriptor's variables and EmptyLocals against the current task's context,
and evaluate it recursively. -/
def TaskConfig.evaluateSubtask (w : World) (config : DigConfig)
    (captureOutput : Bool) (fuel : Nat) (parentContext : RunContext)
    (subtask : PreparedTaskStep) :
    List Event × Except DigError (Option (List String)) :=
  match config.getTask subtask.task with
  | .error e => ([], .error e)
  | .ok subtaskConfig =>
      let (ev, prepRes) := subtaskConfig.prepare w subtask.task subtask.vars
        .emptyLocals parentContext
      match prepRes with
      | .error e => (ev, .error e)
      | .ok subtaskData =>
          let (ev2, r) := TaskConfig.evaluate w config captureOutput fuel
            subtaskConfig subtaskData
          (ev ++ ev2, r)
  termination_by (fuel, 1, 0)
  decreasing_by
  all_goals simp [Prod.lex_iff]

end

/-- A basic step with the silent flag set, used to exercise the emission
behaviour. -/
def silentStep : BasicStep :=
  { cmd := .none
    entry := "echo"
    env := Option.none
    dir := Option.none
    ifGates := Option.none
    store := Option.none
    silent := true }

/-- A world whose only process produces stdout `hello`, stderr `oops` and
exit code 0. -/
def emitWorld : World :=
  { runProcess := fun _ _ _ _ =>
      .ok { stdout := "hello", stderr := "oops", code := 0 }
    isDir := fun _ => true
    mtimeOf := fun _ => Option.none
    now := 0
    jsonParse := fun _ => Option.none }

/-- C9 (amended): whenever a generic process step reaches its spawned
process, the trimmed stdout is emitted dim and the trimmed stderr red
exactly when they are non-empty — for every value of the step's silent
flag: the flag is folded into the context but never consulted before
emitting. -/
theorem basic_step_emission (w : World) (self : BasicStep) (stepI : Nat)
    (vars : VariableSet) (context : RunContext) (ctx2 : RunContext)
    (ev1 : List Event) (prog : String) (args : List String) (rep : String)
    (out : ProcessOutput)
    (h1 : RunContext.update w context self.env self.dir self.silent vars =
      .ok ctx2)
    (h2 : testRunGates w self.ifGates vars ctx2 = (ev1, .ok Option.none))
    (h3 : self.buildCommand vars = .ok (prog, args, rep))
    (h4 : w.runProcess prog args ctx2.env ctx2.dir = .ok out) :
    BasicStep.evaluate w self stepI vars context =
      (ev1 ++
        [Event.print ("STEP:" ++ toString stepI ++ " -- " ++ rep) .plain,
         Event.spawn prog args ctx2.env ctx2.dir] ++
        (if strTrim out.stdout ≠ "" then
          [Event.print (strTrim out.stdout) .dim] else []) ++
        (if strTrim out.stderr ≠ "" then
          [Event.print (strTrim out.stderr) .red] else []),
        if out.code = 0 then .ok (.completed (strTrim (strTrim out.stdout)))
        else .error (strTrim out.stderr)) := by
  unfold BasicStep.evaluate
  rw [h1]
  dsimp only
  rw [h2]
  dsimp only
  rw [h3]
  dsimp only
  rw [h4]
  by_cases hc : out.code = 0 <;>
    simp [hc, List.append_assoc]

/-- Closed witness for C9: the silent step against the emitting world —
both output lines appear even though silent is true. -/
theorem basic_step_emission_witness :
    BasicStep.evaluate emitWorld silentStep 0 VariableSet.new
        RunContext.default =
      ([] ++
        [Event.print ("STEP:" ++ toString 0 ++ " -- " ++ "echo") .plain,
         Event.spawn "echo" [] Option.none Option.none] ++
        (if strTrim "hello" ≠ "" then
          [Event.print (strTrim "hello") .dim] else []) ++
        (if strTrim "oops" ≠ "" then
          [Event.print (strTrim "oops") .red] else []),
        if (0 : Int) = 0 then
          .ok (.completed (strTrim (strTrim "hello")))
        else .error (strTrim "oops")) :=
  basic_step_emission emitWorld silentStep 0 VariableSet.new
    RunContext.default { RunContext.default with silent := true } []
    "echo" [] "echo" { stdout := "hello", stderr := "oops", code := 0 }
    rfl rfl rfl rfl

/-- C9 counterexample: an effectively silent step (step silent flag true)
still emits its non-empty stdout dim and its non-empty stderr red — the
claim's "not emitted to the terminal when silent" is false on the code. -/
theorem basic_step_silent_counterexample :
    silentStep.silent = true ∧
    BasicStep.evaluate emitWorld silentStep 0 VariableSet.new
        RunContext.default =
      ([Event.print "STEP:0 -- echo" .plain,
        Event.spawn "echo" [] Option.none Option.none,
        Event.print "hello" .dim,
        Event.print "oops" .red],
        .ok (.completed "hello")) :=
  ⟨rfl, rfl⟩

/-- Elements an `over` source expansion iterates over in
`_prepare_subtasks`: an array iterates its elements, any other value is
wrapped in a one-element list (objects are rejected before this applies). -/
def jsonElems : Json → List Json
  | .arr x => x
  | other => [other]

/-- Whether a JSON value is an object. -/
def isObjJson : Json → Bool
  | .obj _ => true
  | _ => false

/-- All ways of choosing one element from each list, first list outermost. -/
def tupleChoices : List (List Json) → List (List Json)
  | [] => [[]]
  | l :: rest =>
      (l.map (fun v => (tupleChoices rest).map (fun t => v :: t))).flatten

/-- Written from the specification's words, for comparison with
`_prepare_subtasks` (the refinement side of C4): the cartesian product of
the pairs' expansions, one descriptor per choice, binding each target key
to its chosen element.  The pairs are popped from the end of the list, so
the last pair varies slowest. -/
def specCartesianDescriptors (self : TaskStepConfig) (context : RunContext)
    (f : String → Json) (pairs : List (String × String))
    (vars : VariableSet) : List PreparedTaskStep :=
  (tupleChoices ((pairs.reverse).map (fun p => jsonElems (f p.2)))).map
    (fun tuple =>
      { task := self.task
        vars := List.foldl (fun vs kv => vs.insert kv.1 kv.2) vars
          (((pairs.reverse).map Prod.fst).zip tuple)
        context := context })

theorem tupleChoices_length (ls : List (List Json)) :
    (tupleChoices ls).length = (ls.map List.length).prod := by
  induction ls with
  | nil => rfl
  | cons l rest ih =>
      simp [tupleChoices, List.length_flatten, List.map_map, Function.comp,
        ih]
      induction l with
      | nil => simp
      | cons v vs ihl =>
          simp only [List.map_cons, List.sum_cons, List.length_cons, ihl,
            Function.comp, List.length_map, ih]
          ring

theorem prepareSubtasksGo_concat (self : TaskStepConfig) (stepI : Nat)
    (vars : VariableSet) (context : RunContext)
    (l : List (String × String)) (tk sk : String) :
    prepareSubtasksGo self stepI vars context (some (l ++ [(tk, sk)])) =
      (match vars.evaluateTokens sk with
        | .error e => ([], .error e)
        | .ok (.arr x) => prepareSubtasksLoop self stepI context tk l vars x
        | .ok (.obj o) =>
            ([], .error ("Unable to map over object variable '" ++ sk ++ "'"))
        | .ok other =>
            prepareSubtasksLoop self stepI context tk l vars [other]) := by
  rw [prepareSubtasksGo]
  split
  · rename_i heq
    simp at heq
  · rename_i targetKey sourceKey heq
    rw [List.getLast?_concat] at heq
    injection heq with heq
    cases heq
    simp only [List.dropLast_concat]

theorem prepareSubtasksGo_concat_ok (self : TaskStepConfig) (stepI : Nat)
    (vars : VariableSet) (context : RunContext)
    (l : List (String × String)) (tk sk : String) (value : Json)
    (hexp : vars.evaluateTokens sk = .ok value)
    (hobj : isObjJson value = false) :
    prepareSubtasksGo self stepI vars context (some (l ++ [(tk, sk)])) =
      prepareSubtasksLoop self stepI context tk l vars (jsonElems value) := by
  rw [prepareSubtasksGo_concat, hexp]
  cases value <;> simp_all [isObjJson, jsonElems]

theorem VariableMap.get_filter_ne (m : VariableMap) (key k : String)
    (h : ¬ k = key) :
    VariableMap.get (m.filter fun p => p.1 ≠ key) k = m.get k := by
  induction m with
  | nil => rfl
  | cons kv rest ih =>
      obtain ⟨k1, v1⟩ := kv
      by_cases hk : k1 = key
      · rw [List.filter_cons_of_neg (by simp [hk]), ih]
        rw [VariableMap.get, if_neg]
        intro hc
        exact h (hc ▸ hk)
      · rw [List.filter_cons_of_pos (by simp [hk]), VariableMap.get,
          VariableMap.get, ih]

theorem VariableSet.get_insert_ne (vs : VariableSet) (key : String)
    (j : Json) (k : String) (h : ¬ k = key) :
    (vs.insert key j).get k = vs.get k := by
  unfold VariableSet.insert VariableSet.get VariableSet.getFromLocals
    VariableMap.insert
  dsimp only
  rw [VariableMap.get, if_neg (fun hc => h hc.symm),
    VariableMap.get_filter_ne _ _ _ h]

theorem prepareSubtasksLoop_spec (self : TaskStepConfig) (stepI : Nat)
    (context : RunContext) (targetKey : String)
    (restPairs : List (String × String)) (P : VariableSet → Prop)
    (G : VariableSet → List PreparedTaskStep)
    (hG : ∀ nv : VariableSet, P nv →
      (prepareSubtasksGo self stepI nv context (some restPairs)).2 =
        .ok (G nv))
    (hcl : ∀ v : VariableSet, P v → ∀ j : Json, P (v.insert targetKey j))
    (vars : VariableSet) (hPv : P vars) :
    ∀ values : List Json,
      (prepareSubtasksLoop self stepI context targetKey restPairs vars
          values).2 =
        .ok ((values.map
          (fun v => G (vars.insert targetKey v))).flatten) := by
  intro values
  induction values with
  | nil => simp [prepareSubtasksLoop]
  | cons v vs ih =>
      have hgo := hG (vars.insert targetKey v) (hcl vars hPv v)
      rcases hE : prepareSubtasksGo self stepI (vars.insert targetKey v)
          context (some restPairs) with ⟨ev, r⟩
      rw [hE] at hgo
      simp only at hgo
      subst hgo
      rcases hL : prepareSubtasksLoop self stepI context targetKey restPairs
          vars vs with ⟨ev2, r2⟩
      rw [hL] at ih
      simp only at ih
      subst ih
      simp [prepareSubtasksLoop, hE, hL]

theorem prepareSubtasksGo_spec (self : TaskStepConfig) (stepI : Nat)
    (context : RunContext) (f : String → Json) (P : VariableSet → Prop)
    (pairs : List (String × String)) :
    (∀ p ∈ pairs, ∀ v : VariableSet, P v →
      v.evaluateTokens p.2 = .ok (f p.2)) →
    (∀ p ∈ pairs, isObjJson (f p.2) = false) →
    (∀ v : VariableSet, P v → ∀ p ∈ pairs, ∀ j : Json, P (v.insert p.1 j)) →
    ∀ vars : VariableSet, P vars →
      (prepareSubtasksGo self stepI vars context (some pairs)).2 =
        .ok (specCartesianDescriptors self context f pairs vars) := by
  induction pairs using List.reverseRecOn with
  | nil =>
      intro _ _ _ vars _
      simp [prepareSubtasksGo, specCartesianDescriptors, tupleChoices]
  | append_singleton l p ih =>
      obtain ⟨tk, sk⟩ := p
      intro hf hobj hcl vars hPv
      have hmem : (tk, sk) ∈ l ++ [(tk, sk)] := by simp
      have hexp := hf (tk, sk) hmem vars hPv
      have hG : ∀ nv : VariableSet, P nv →
          (prepareSubtasksGo self stepI nv context (some l)).2 =
            .ok (specCartesianDescriptors self context f l nv) :=
        ih (fun q hq v hv => hf q (by simp [hq]) v hv)
          (fun q hq => hobj q (by simp [hq]))
          (fun v hv q hq j => hcl v hv q (by simp [hq]) j)
      rw [prepareSubtasksGo_concat_ok self stepI vars context l tk sk (f sk)
        hexp (hobj _ hmem)]
      rw [prepareSubtasksLoop_spec self stepI context tk l P _ hG
        (fun v hv j => hcl v hv (tk, sk) hmem j) vars hPv
        (jsonElems (f sk))]
      simp only [specCartesianDescriptors, List.reverse_append,
        List.reverse_cons, List.reverse_nil, List.nil_append,
        List.cons_append, List.map_cons, tupleChoices, List.map_flatten,
        List.map_map]
      refine congrArg Except.ok (congrArg List.flatten ?_)
      apply List.map_congr_left
      intro v _
      simp only [Function.comp, List.map_map]
      apply List.map_congr_left
      intro t _
      simp

theorem prepareSubtasksLoop_error (self : TaskStepConfig) (stepI : Nat)
    (context : RunContext) (targetKey : String)
    (restPairs : List (String × String)) (vars : VariableSet) (v : Json)
    (vs : List Json) (e : DigError)
    (hgo : (prepareSubtasksGo self stepI (vars.insert targetKey v) context
      (some restPairs)).2 = .error e) :
    (prepareSubtasksLoop self stepI context targetKey restPairs vars
      (v :: vs)).2 = .error e := by
  rcases hE : prepareSubtasksGo self stepI (vars.insert targetKey v) context
      (some restPairs) with ⟨ev, r⟩
  rw [hE] at hgo
  simp only at hgo
  subst hgo
  simp [prepareSubtasksLoop, hE]

theorem prepareSubtasksGo_obj_error (self : TaskStepConfig) (stepI : Nat)
    (context : RunContext) (f : String → Json) (P : VariableSet → Prop)
    (pairs : List (String × String)) :
    (∀ p ∈ pairs, ∀ v : VariableSet, P v →
      v.evaluateTokens p.2 = .ok (f p.2)) →
    (∀ p ∈ pairs, isObjJson (f p.2) = true ∨ jsonElems (f p.2) ≠ []) →
    (∀ v : VariableSet, P v → ∀ p ∈ pairs, ∀ j : Json, P (v.insert p.1 j)) →
    (∃ p ∈ pairs, isObjJson (f p.2) = true) →
    ∀ vars : VariableSet, P vars → ∃ e,
      (prepareSubtasksGo self stepI vars context (some pairs)).2 =
        .error e := by
  induction pairs using List.reverseRecOn with
  | nil =>
      rintro _ _ _ ⟨p, hp, _⟩ vars _
      simp at hp
  | append_singleton l p ih =>
      obtain ⟨tk, sk⟩ := p
      intro hf hnz hcl hex vars hPv
      have hmem : (tk, sk) ∈ l ++ [(tk, sk)] := by simp
      have hexp := hf (tk, sk) hmem vars hPv
      by_cases hlast : isObjJson (f sk) = true
      · rcases hfs : f sk with _ | _ | _ | _ | _ | o <;>
          rw [hfs] at hlast <;> simp [isObjJson] at hlast
        refine ⟨"Unable to map over object variable '" ++ sk ++ "'", ?_⟩
        rw [prepareSubtasksGo_concat, hexp, hfs]
      · have hobjf : isObjJson (f sk) = false := by
          simpa using hlast
        have hne : jsonElems (f sk) ≠ [] := by
          rcases hnz (tk, sk) hmem with h | h
          · exact absurd h hlast
          · exact h
        have hexl : ∃ q ∈ l, isObjJson (f q.2) = true := by
          rcases hex with ⟨q, hq, hqobj⟩
          rcases List.mem_append.mp hq with hql | hqs
          · exact ⟨q, hql, hqobj⟩
          · simp at hqs
            rw [hqs] at hqobj
            exact absurd hqobj hlast
        rw [prepareSubtasksGo_concat_ok self stepI vars context l tk sk
          (f sk) hexp hobjf]
        rcases he : jsonElems (f sk) with _ | ⟨v, vs⟩
        · exact absurd he hne
        · obtain ⟨e, hel⟩ := ih
            (fun q hq v hv => hf q (by simp [hq]) v hv)
            (fun q hq => hnz q (by simp [hq]))
            (fun v hv q hq j => hcl v hv q (by simp [hq]) j) hexl
            (vars.insert tk v) (hcl vars hPv (tk, sk) hmem v)
          exact ⟨e, prepareSubtasksLoop_error self stepI context tk l vars v
            vs e hel⟩

/-- C4 (amended): for a sub-task step whose `over` pairs each expand to the
same value `f(source)` in every variable environment of a family `P` that
contains the step's variables and is closed under binding the pairs' target
keys (the environments the fan-out recursion can reach): (i) when no pair
expands to an object, preparing the sub-tasks succeeds and emits exactly
the cartesian product of the pairs' expansions — one descriptor per choice
of one element from each pair, binding each target key to its chosen
element — so the count is s1·s2·…·sm; (ii) when some pair expands to an
object and every other pair's expansion is non-empty, evaluation fails
with an error.  (An object pair shadowed by an empty-array pair popped
before it is never reached; see the counterexample.) -/
theorem over_cartesian_fanout (self : TaskStepConfig) (stepI : Nat)
    (vars : VariableSet) (context : RunContext) (f : String → Json)
    (pairs : List (String × String)) (P : VariableSet → Prop)
    (hover : self.over = some pairs)
    (hP : P vars)
    (hcl : ∀ v : VariableSet, P v → ∀ p ∈ pairs, ∀ j : Json,
      P (v.insert p.1 j))
    (hf : ∀ p ∈ pairs, ∀ v : VariableSet, P v →
      v.evaluateTokens p.2 = .ok (f p.2)) :
    ((∀ p ∈ pairs, isObjJson (f p.2) = false) →
      (self.prepareSubtasks stepI vars context).2 =
        .ok (.submitTasks
          (specCartesianDescriptors self context f pairs vars)) ∧
      (specCartesianDescriptors self context f pairs vars).length =
        (pairs.map (fun p => (jsonElems (f p.2)).length)).prod) ∧
    ((∃ p ∈ pairs, isObjJson (f p.2) = true) →
      (∀ p ∈ pairs, isObjJson (f p.2) = true ∨ jsonElems (f p.2) ≠ []) →
      ∃ e, (self.prepareSubtasks stepI vars context).2 = .error e) := by
  constructor
  · intro hobj
    constructor
    · have hgo := prepareSubtasksGo_spec self stepI context f P pairs hf
        hobj hcl vars hP
      rcases hE : prepareSubtasksGo self stepI vars context (some pairs)
          with ⟨ev, r⟩
      rw [hE] at hgo
      simp only at hgo
      subst hgo
      simp [TaskStepConfig.prepareSubtasks, hover, hE]
    · simp [specCartesianDescriptors, tupleChoices_length, List.map_map,
        Function.comp, List.map_reverse, List.prod_reverse]
      rfl
  · intro hex hnz
    obtain ⟨e, hgo⟩ := prepareSubtasksGo_obj_error self stepI context f P
      pairs hf hnz hcl hex vars hP
    rcases hE : prepareSubtasksGo self stepI vars context (some pairs)
        with ⟨ev, r⟩
    rw [hE] at hgo
    simp only at hgo
    subst hgo
    exact ⟨e, by simp [TaskStepConfig.prepareSubtasks, hover, hE]⟩

/-- A sub-task step mapping `a` over the array variable `L` and `b` over
the array variable `M`. -/
def overStepW : TaskStepConfig :=
  { task := "child"
    vars := Option.none
    env := Option.none
    dir := Option.none
    ifGates := Option.none
    over := some [("a", "\x7b\x7bL\x7d\x7d"), ("b", "\x7b\x7bM\x7d\x7d")]
    silent := false }

/-- Variables binding `L` to a two-element array and `M` to a three-element
array. -/
def overVarsW : VariableSet :=
  { stackedVars := []
    localVars :=
      [("L", Json.arr [Json.num 1, Json.num 2]),
       ("M", Json.arr [Json.str "x", Json.str "y", Json.str "z"])] }

/-- Expansion values of the two fan-out sources of `overStepW`. -/
def overFW : String → Json := fun s =>
  if s = "\x7b\x7bL\x7d\x7d" then Json.arr [Json.num 1, Json.num 2]
  else if s = "\x7b\x7bM\x7d\x7d" then
    Json.arr [Json.str "x", Json.str "y", Json.str "z"]
  else Json.null

/-- The environments in which `L` and `M` keep their array bindings. -/
def overPW : VariableSet → Prop := fun v =>
  v.get "L" = .ok (Json.arr [Json.num 1, Json.num 2]) ∧
  v.get "M" = .ok (Json.arr [Json.str "x", Json.str "y", Json.str "z"])

/-- A sub-task step mapping `a` over the object variable `O` and `b` over
the non-empty array variable `M`. -/
def overObjStepW : TaskStepConfig :=
  { task := "child"
    vars := Option.none
    env := Option.none
    dir := Option.none
    ifGates := Option.none
    over := some [("a", "\x7b\x7bO\x7d\x7d"), ("b", "\x7b\x7bM\x7d\x7d")]
    silent := false }

/-- Variables binding `O` to an object and `M` to a one-element array. -/
def overObjVarsW : VariableSet :=
  { stackedVars := []
    localVars :=
      [("O", Json.obj [("k", Json.num 1)]),
       ("M", Json.arr [Json.str "x"])] }

/-- Expansion values of the two fan-out sources of `overObjStepW`. -/
def overObjFW : String → Json := fun s =>
  if s = "\x7b\x7bO\x7d\x7d" then Json.obj [("k", Json.num 1)]
  else if s = "\x7b\x7bM\x7d\x7d" then Json.arr [Json.str "x"]
  else Json.null

/-- The environments in which `O` and `M` keep their bindings. -/
def overObjPW : VariableSet → Prop := fun v =>
  v.get "O" = .ok (Json.obj [("k", Json.num 1)]) ∧
  v.get "M" = .ok (Json.arr [Json.str "x"])

/-- Closed witness for C4: the 2×3 array fan-out emits the six-descriptor
cartesian product (count s1·s2 = 2·3), and with an object source whose
companion pair is a non-empty array, preparation fails. -/
theorem over_cartesian_fanout_witness :
    ((overStepW.prepareSubtasks 0 overVarsW RunContext.default).2 =
      .ok (.submitTasks (specCartesianDescriptors overStepW
        RunContext.default overFW
        [("a", "\x7b\x7bL\x7d\x7d"), ("b", "\x7b\x7bM\x7d\x7d")]
        overVarsW)) ∧
     (specCartesianDescriptors overStepW RunContext.default overFW
        [("a", "\x7b\x7bL\x7d\x7d"), ("b", "\x7b\x7bM\x7d\x7d")]
        overVarsW).length =
      ([("a", "\x7b\x7bL\x7d\x7d"), ("b", "\x7b\x7bM\x7d\x7d")].map
        (fun p => (jsonElems (overFW p.2)).length)).prod) ∧
    (∃ e, (overObjStepW.prepareSubtasks 0 overObjVarsW
      RunContext.default).2 = .error e) :=
  ⟨(over_cartesian_fanout overStepW 0 overVarsW RunContext.default overFW
      [("a", "\x7b\x7bL\x7d\x7d"), ("b", "\x7b\x7bM\x7d\x7d")] overPW rfl
      ⟨rfl, rfl⟩
      (by
        intro v hv p hp j
        simp only [List.mem_cons, List.not_mem_nil, or_false] at hp
        refine ⟨?_, ?_⟩ <;>
          · rcases hp with rfl | rfl
            · rw [VariableSet.get_insert_ne v _ j _ (by decide)]
              first
              | exact hv.1
              | exact hv.2
            · rw [VariableSet.get_insert_ne v _ j _ (by decide)]
              first
              | exact hv.1
              | exact hv.2)
      (by
        intro p hp v hv
        simp only [List.mem_cons, List.not_mem_nil, or_false] at hp
        rcases hp with rfl | rfl
        · exact hv.1
        · exact hv.2)).1
    (by
      intro p hp
      simp only [List.mem_cons, List.not_mem_nil, or_false] at hp
      rcases hp with rfl | rfl <;> rfl),
   (over_cartesian_fanout overObjStepW 0 overObjVarsW RunContext.default
      overObjFW
      [("a", "\x7b\x7bO\x7d\x7d"), ("b", "\x7b\x7bM\x7d\x7d")] overObjPW
      rfl ⟨rfl, rfl⟩
      (by
        intro v hv p hp j
        simp only [List.mem_cons, List.not_mem_nil, or_false] at hp
        refine ⟨?_, ?_⟩ <;>
          · rcases hp with rfl | rfl
            · rw [VariableSet.get_insert_ne v _ j _ (by decide)]
              first
              | exact hv.1
              | exact hv.2
            · rw [VariableSet.get_insert_ne v _ j _ (by decide)]
              first
              | exact hv.1
              | exact hv.2)
      (by
        intro p hp v hv
        simp only [List.mem_cons, List.not_mem_nil, or_false] at hp
        rcases hp with rfl | rfl
        · exact hv.1
        · exact hv.2)).2
    ⟨("a", "\x7b\x7bO\x7d\x7d"), by simp, rfl⟩
    (by
      intro p hp
      simp only [List.mem_cons, List.not_mem_nil, or_false] at hp
      rcases hp with rfl | rfl
      · exact Or.inl rfl
      · refine Or.inr ?_
        intro hc
        simp [overObjFW, jsonElems] at hc)⟩

/-- A sub-task step whose `over` maps one pair over an object-valued
variable and another over an empty array. -/
def overObjStep : TaskStepConfig :=
  { task := "child"
    vars := Option.none
    env := Option.none
    dir := Option.none
    ifGates := Option.none
    over := some [("a", "\x7b\x7bO\x7d\x7d"), ("b", "\x7b\x7bE\x7d\x7d")]
    silent := false }

/-- Variables binding `O` to an object and `E` to an empty array. -/
def overObjVars : VariableSet :=
  { stackedVars := []
    localVars := [("O", Json.obj [("k", Json.num 1)]), ("E", Json.arr [])] }

/-- C4 counterexample: one source expression expands to a JSON object, yet
preparation succeeds (with zero descriptors): the pair mapping over the
empty array is popped first, its loop body never runs, and the object pair
is never expanded — the claim's "if any source expression expands to a
JSON object, evaluation fails" is false on the code. -/
theorem over_object_counterexample :
    overObjVars.evaluateTokens "\x7b\x7bO\x7d\x7d" =
      .ok (Json.obj [("k", Json.num 1)]) ∧
    (overObjStep.prepareSubtasks 0 overObjVars RunContext.default).2 =
      .ok (.submitTasks []) := by
  constructor
  · rfl
  · have h1 : overObjVars.evaluateTokens "\x7b\x7bE\x7d\x7d" =
        .ok (Json.arr []) := rfl
    have h2 := prepareSubtasksGo_concat overObjStep 0 overObjVars
      RunContext.default [("a", "\x7b\x7bO\x7d\x7d")] "b" "\x7b\x7bE\x7d\x7d"
    rw [h1] at h2
    simp only [List.cons_append, List.nil_append, overObjStep] at h2
    simp [TaskStepConfig.prepareSubtasks, overObjStep, h2,
      prepareSubtasksLoop]

/-- C1: the cancel-if (`unless`) gate list.  (a) When the list is present
and every gate passes (no first-failure), evaluation is canceled: it
returns an error and its whole trace is the gate events plus the single
cancel log line — no pre-step or step ran.  (b) When some gate fails,
the task is not canceled: the result is exactly the continuation
(pre-steps, skip test, main phase), prefixed by the gate events.  (c) A
task with no `unless` list is never canceled: its result is exactly the
continuation. -/
theorem cancel_if_gates (w : World) (config : DigConfig) (capture : Bool)
    (fuel : Nat) (self : TaskConfig) (data : TaskEvaluationData) :
    (∀ gates ev, self.unlessGates = some gates →
      testRunGates w (some gates) data.vars data.context =
        (ev, .ok Option.none) →
      TaskConfig.evaluate w config capture (fuel + 1) self data =
        (ev ++ [taskLog data.label
            "Canceled because all unless-statements returned true"],
          .error ("Task " ++ data.label ++ " canceled"))) ∧
    (∀ gates ev i exit, self.unlessGates = some gates →
      testRunGates w (some gates) data.vars data.context =
        (ev, .ok (some (i, exit))) →
      TaskConfig.evaluate w config capture (fuel + 1) self data =
        (ev ++ (TaskConfig.evaluatePhases w config capture fuel self
          data).1,
          (TaskConfig.evaluatePhases w config capture fuel self data).2)) ∧
    (self.unlessGates = Option.none →
      TaskConfig.evaluate w config capture (fuel + 1) self data =
        TaskConfig.evaluatePhases w config capture fuel self data) := by
  refine ⟨?_, ?_, ?_⟩
  · intro gates ev hu ht
    have hc : self.testCancel w data =
        (ev, .ok (some ⟨data.label,
          "all unless-statements returned true"⟩)) := by
      unfold TaskConfig.testCancel
      rw [hu]
      dsimp only
      rw [ht]
    rw [TaskConfig.evaluate, hc]
    simp
  · intro gates ev i exit hu ht
    have hc : self.testCancel w data = (ev, .ok Option.none) := by
      unfold TaskConfig.testCancel
      rw [hu]
      dsimp only
      rw [ht]
    rw [TaskConfig.evaluate, hc]
  · intro hu
    have hc : self.testCancel w data = ([], .ok Option.none) := by
      unfold TaskConfig.testCancel
      rw [hu]
    rw [TaskConfig.evaluate, hc]
    simp

/-- A task whose only gate list is a single always-true cancel-if gate. -/
def cancelTask : TaskConfig :=
  { label := Option.none
    presteps := Option.none
    steps := []
    poststeps := Option.none
    inputs := Option.none
    outputs := Option.none
    ifGates := Option.none
    unlessGates := some [RunGate.internal "1 = 1"]
    silent := false
    vars := Option.none
    forcing := .inherit
    env := Option.none
    dir := Option.none }

/-- Evaluation data for the closed engine examples. -/
def plainData : TaskEvaluationData :=
  { label := "t", vars := VariableSet.new, context := RunContext.default }

/-- An inert world for closed engine examples: every process succeeds with
empty output, no file exists, nothing parses as JSON. -/
def inertWorld : World :=
  { runProcess := fun _ _ _ _ =>
      .ok { stdout := "", stderr := "", code := 0 }
    isDir := fun _ => true
    mtimeOf := fun _ => Option.none
    now := 0
    jsonParse := fun _ => Option.none }

/-- Closed witness for C1: the always-true cancel gate cancels the task —
the returned value is an error and the trace is the lone cancel line. -/
theorem cancel_if_gates_witness :
    TaskConfig.evaluate inertWorld (DigConfig.mk "1" Option.none []
        Option.none Option.none) true 1 cancelTask plainData =
      ([] ++ [taskLog "t"
          "Canceled because all unless-statements returned true"],
        .error ("Task " ++ "t" ++ " canceled")) :=
  (cancel_if_gates inertWorld (DigConfig.mk "1" Option.none [] Option.none
      Option.none) true 0 cancelTask plainData).1
    [RunGate.internal "1 = 1"] [] rfl rfl

/-- C2 (amended): post-steps are always attempted after a main-step
failure — their step loop runs and its events appear in the trace.  When
the post-steps then succeed, the main-step error is returned; when the
post-steps also fail, the post-step error is returned (the main-step error
appears only in the log line). -/
theorem poststep_error_precedence (w : World) (config : DigConfig)
    (capture : Bool) (fuel : Nat) (self : TaskConfig)
    (data : TaskEvaluationData) (pretest : List String)
    (posts : List StepConfig) (ev1 : List Event) (vars3 : VariableSet)
    (e : DigError)
    (hposts : self.poststeps = some posts)
    (hmain : TaskConfig.evaluateSteps w config capture fuel self.steps 0
      data.vars data.context = (ev1, vars3, .error e)) :
    (∀ evq varsq outs,
      TaskConfig.evaluateSteps w config capture fuel posts 0
        (vars3.insert "SUCCESS" (.bool false)) data.context =
          (evq, varsq, .ok outs) →
      TaskConfig.evaluateMainPhase w config capture fuel self data pretest =
        ([taskLog data.label "Begin"] ++ ev1 ++
          (taskLog data.label "Evaluating post-steps" :: evq) ++
          [taskLogBad data.label "Task failed"], .error e)) ∧
    (∀ evq varsq e2,
      TaskConfig.evaluateSteps w config capture fuel posts 0
        (vars3.insert "SUCCESS" (.bool false)) data.context =
          (evq, varsq, .error e2) →
      TaskConfig.evaluateMainPhase w config capture fuel self data pretest =
        ([taskLog data.label "Begin"] ++ ev1 ++
          (taskLog data.label "Evaluating post-steps" :: evq) ++
          [taskLogBad data.label ("Task failed:\n" ++ e ++
            "\n\nAnd then post-steps failed as well")], .error e2)) := by
  constructor
  · intro evq varsq outs hpost
    rw [TaskConfig.evaluateMainPhase, hmain]
    dsimp only
    rw [hposts]
    dsimp only
    rw [hpost]
  · intro evq varsq e2 hpost
    rw [TaskConfig.evaluateMainPhase, hmain]
    dsimp only
    rw [hposts]
    dsimp only
    rw [hpost]

/-- An empty configuration (no tasks). -/
def emptyConfig : DigConfig :=
  { version := "1"
    vars := Option.none
    tasks := []
    env := Option.none
    dir := Option.none }

/-- A task whose single main step and single post-step both run failing
commands. -/
def bothFailTask : TaskConfig :=
  { label := Option.none
    presteps := Option.none
    steps := [.single (.simple "maincmd")]
    poststeps := some [.single (.simple "postcmd")]
    inputs := Option.none
    outputs := Option.none
    ifGates := Option.none
    unlessGates := Option.none
    silent := false
    vars := Option.none
    forcing := .inherit
    env := Option.none
    dir := Option.none }

/-- A world in which the main command fails with stderr `mainerr` and every
other command fails with stderr `posterr`. -/
def failWorld : World :=
  { runProcess := fun _ args _ _ =>
      if args = ["-c", "maincmd"] then
        .ok { stdout := "", stderr := "mainerr", code := 1 }
      else
        .ok { stdout := "", stderr := "posterr", code := 1 }
    isDir := fun _ => true
    mtimeOf := fun _ => Option.none
    now := 0
    jsonParse := fun _ => Option.none }

/-- A world in which the main command fails with stderr `mainerr` and every
other command succeeds with empty output. -/
def mixWorld : World :=
  { runProcess := fun _ args _ _ =>
      if args = ["-c", "maincmd"] then
        .ok { stdout := "", stderr := "mainerr", code := 1 }
      else
        .ok { stdout := "", stderr := "", code := 0 }
    isDir := fun _ => true
    mtimeOf := fun _ => Option.none
    now := 0
    jsonParse := fun _ => Option.none }

/-- Closed witness for C2: with the failing main step and a successful
post-step world, the main-step error is returned after the post-steps
ran. -/
theorem poststep_error_precedence_witness :
    TaskConfig.evaluateMainPhase mixWorld emptyConfig true 0 bothFailTask
        plainData [] =
      ([taskLog "t" "Begin"] ++
        (TaskConfig.evaluateSteps mixWorld emptyConfig true 0
          bothFailTask.steps 0 VariableSet.new RunContext.default).1 ++
        (taskLog "t" "Evaluating post-steps" ::
          (TaskConfig.evaluateSteps mixWorld emptyConfig true 0
            [.single (.simple "postcmd")] 0
            (((TaskConfig.evaluateSteps mixWorld emptyConfig true 0
              bothFailTask.steps 0 VariableSet.new
              RunContext.default).2.1).insert "SUCCESS" (.bool false))
            RunContext.default).1) ++
        [taskLogBad "t" "Task failed"],
        .error "mainerr") := by
  have hmain : TaskConfig.evaluateSteps mixWorld emptyConfig true 0
      bothFailTask.steps 0 VariableSet.new RunContext.default =
      ((TaskConfig.evaluateSteps mixWorld emptyConfig true 0
        bothFailTask.steps 0 VariableSet.new RunContext.default).1,
        (TaskConfig.evaluateSteps mixWorld emptyConfig true 0
          bothFailTask.steps 0 VariableSet.new RunContext.default).2.1,
        .error "mainerr") := by
    simp [bothFailTask, TaskConfig.evaluateSteps, StepConfig.evaluate,
      SingularStepConfig.evaluate, BashStep.evaluate, BashStep.new,
      BasicStep.evaluate, RunContext.update, RunContext.updateEnv,
      RunContext.updateDir, testRunGates, BasicStep.buildCommand,
      mixWorld, plainData]
    rfl
  have hpost : TaskConfig.evaluateSteps mixWorld emptyConfig true 0
      [StepConfig.single (.simple "postcmd")] 0
      (((TaskConfig.evaluateSteps mixWorld emptyConfig true 0
        bothFailTask.steps 0 VariableSet.new
        RunContext.default).2.1).insert "SUCCESS" (.bool false))
      RunContext.default =
      ((TaskConfig.evaluateSteps mixWorld emptyConfig true 0
        [StepConfig.single (.simple "postcmd")] 0
        (((TaskConfig.evaluateSteps mixWorld emptyConfig true 0
          bothFailTask.steps 0 VariableSet.new
          RunContext.default).2.1).insert "SUCCESS" (.bool false))
        RunContext.default).1,
        (TaskConfig.evaluateSteps mixWorld emptyConfig true 0
          [StepConfig.single (.simple "postcmd")] 0
          (((TaskConfig.evaluateSteps mixWorld emptyConfig true 0
            bothFailTask.steps 0 VariableSet.new
            RunContext.default).2.1).insert "SUCCESS" (.bool false))
          RunContext.default).2.1,
        .ok [""]) := by
    simp [bothFailTask, TaskConfig.evaluateSteps, StepConfig.evaluate,
      SingularStepConfig.evaluate, BashStep.evaluate, BashStep.new,
      BasicStep.evaluate, RunContext.update, RunContext.updateEnv,
      RunContext.updateDir, testRunGates, BasicStep.buildCommand,
      mixWorld, plainData]
    rfl
  exact (poststep_error_precedence mixWorld emptyConfig true 0
    bothFailTask plainData [] [.single (.simple "postcmd")] _ _ "mainerr"
    rfl hmain).1 _ _ [""] hpost

/-- C2 counterexample: when the main steps fail (error `mainerr`) and the
post-steps also fail (error `posterr`), `evaluate` returns the post-step
error, not the main-step failure the claim promises. -/
theorem poststep_error_counterexample :
    (TaskConfig.evaluateSteps failWorld emptyConfig true 0
      bothFailTask.steps 0 VariableSet.new RunContext.default).2.2 =
        .error "mainerr" ∧
    (TaskConfig.evaluate failWorld emptyConfig true 1 bothFailTask
      plainData).2 = .error "posterr" := by
  constructor
  · simp [bothFailTask, TaskConfig.evaluateSteps, StepConfig.evaluate,
      SingularStepConfig.evaluate, BashStep.evaluate, BashStep.new,
      BasicStep.evaluate, RunContext.update, RunContext.updateEnv,
      RunContext.updateDir, testRunGates, BasicStep.buildCommand,
      failWorld]
    rfl
  · simp [bothFailTask, TaskConfig.evaluate, TaskConfig.evaluatePhases,
      TaskConfig.evaluateMainPhase, TaskConfig.evaluateSteps,
      TaskConfig.testCancel, TaskConfig.testSkip, TaskConfig.checkSkipState,
      StepConfig.evaluate, SingularStepConfig.evaluate, BashStep.evaluate,
      BashStep.new, BasicStep.evaluate, RunContext.update,
      RunContext.updateEnv, RunContext.updateDir, testRunGates,
      BasicStep.buildCommand, failWorld, plainData]
    rfl

/-- C8: the step loop is strictly sequential and `store` bindings are
visible to every later step of the same task.  A step that completes with
output `s` and declares `store` key `k` makes the rest of the loop run with
the local frame extended by `k ↦ JSON-parse(s)-or-string(s)` (the JSON
parse is the external `serde_json::from_str` oracle); a step whose outcome
is Skipped inserts nothing and the rest of the loop runs with the
variables unchanged. -/
theorem store_insertion (w : World) (config : DigConfig) (capture : Bool)
    (fuel : Nat) (step : StepConfig) (rest : List StepConfig) (stepI : Nat)
    (vars : VariableSet) (context : RunContext) (ev : List Event) :
    (∀ s key ev3 varsRest restRes,
      step.evaluate w stepI vars context = (ev, .ok (.completed s)) →
      step.getStore = some key →
      TaskConfig.evaluateSteps w config capture fuel rest (stepI + 1)
        (vars.insert key (match w.jsonParse s with
          | some jsonVal => jsonVal
          | Option.none => Json.str s)) context = (ev3, varsRest, restRes) →
      TaskConfig.evaluateSteps w config capture fuel (step :: rest) stepI
        vars context =
        (ev ++ ev3, varsRest,
          match restRes with
          | .error e => .error e
          | .ok restOutputs =>
              .ok ((match capture with
                | true => [s]
                | false => []) ++ restOutputs))) ∧
    (∀ i stmt ev3 varsRest restRes,
      step.evaluate w stepI vars context =
        (ev, .ok (.skippedDueToIfStatement i stmt)) →
      TaskConfig.evaluateSteps w config capture fuel rest (stepI + 1) vars
        context = (ev3, varsRest, restRes) →
      TaskConfig.evaluateSteps w config capture fuel (step :: rest) stepI
        vars context =
        (ev ++ ev3, varsRest,
          match restRes with
          | .error e => .error e
          | .ok restOutputs => .ok restOutputs)) := by
  constructor
  · intro s key ev3 varsRest restRes hstep hstore htail
    rw [TaskConfig.evaluateSteps, hstep]
    dsimp only
    rw [hstore]
    dsimp only
    rw [htail]
    dsimp only
    cases restRes <;> simp
  · intro i stmt ev3 varsRest restRes hstep htail
    rw [TaskConfig.evaluateSteps, hstep]
    dsimp only
    rw [htail]
    dsimp only
    cases restRes <;> simp

/-- A basic step that stores its output under the key `k`. -/
def storeStep : StepConfig :=
  .single (.config (.basic
    { cmd := .none
      entry := "emit"
      env := Option.none
      dir := Option.none
      ifGates := Option.none
      store := some "k"
      silent := false }))

/-- A world whose only process prints `7`, and whose JSON parser parses
exactly the string `7` (to the number 7). -/
def jsonWorld : World :=
  { runProcess := fun _ _ _ _ =>
      .ok { stdout := "7", stderr := "", code := 0 }
    isDir := fun _ => true
    mtimeOf := fun _ => Option.none
    now := 0
    jsonParse := fun s => if s = "7" then some (Json.num 7) else Option.none }

/-- Closed witness for C8: the storing step completes with output `7` and
the loop continues with `k ↦ 7` (the JSON number) in the local frame. -/
theorem store_insertion_witness :
    TaskConfig.evaluateSteps jsonWorld emptyConfig true 0 [storeStep] 0
        VariableSet.new RunContext.default =
      ([Event.print "STEP:0 -- emit" .plain,
        Event.spawn "emit" [] Option.none Option.none,
        Event.print "7" .dim] ++ [],
        VariableSet.new.insert "k" (Json.num 7),
        .ok (["7"] ++ [])) := by
  have h := (store_insertion jsonWorld emptyConfig true 0 storeStep [] 0
      VariableSet.new RunContext.default
      [Event.print "STEP:0 -- emit" .plain,
       Event.spawn "emit" [] Option.none Option.none,
       Event.print "7" .dim]).1 "7" "k" []
    (VariableSet.new.insert "k" (Json.num 7)) (.ok []) rfl rfl
    (by simp [TaskConfig.evaluateSteps, jsonWorld])
  simpa using h

/-- C3 (amended): the freshness check.  For a task whose cancel test
passes, with no pre-steps, an `inputs` list present and a passing run-if
outcome: when the context is not forced, the task is skipped (result
`Ok(None)`, a single skip line, the main phase never entered) exactly when
the earliest output (the minimum of the current time and the mtimes of
existing outputs) is strictly greater than the latest input mtime;
otherwise the main phase (Begin log, steps) runs.  When the context is
forced the main phase always runs. -/
theorem freshness_skip (w : World) (config : DigConfig) (capture : Bool)
    (fuel : Nat) (self : TaskConfig) (data : TaskEvaluationData)
    (evc evg : List Event) (latest earliest : Nat)
    (hc : self.testCancel w data = (evc, .ok Option.none))
    (hpre : self.presteps = Option.none)
    (hinputs : self.inputs.isSome = true)
    (hIf : testRunGates w self.ifGates data.vars data.context =
      (evg, .ok Option.none))
    (hin : self.getLatestInput w data.vars = .ok latest)
    (hout : self.getEarliestOutput w data.vars = .ok earliest) :
    (data.context.isForced = false → earliest > latest →
      TaskConfig.evaluate w config capture (fuel + 1) self data =
        (evc ++ (evg ++
          [taskLog data.label
            "Skipped because all outputs are up to date'"]),
          .ok Option.none)) ∧
    (data.context.isForced = false → ¬ earliest > latest →
      TaskConfig.evaluate w config capture (fuel + 1) self data =
        (evc ++ (evg ++
          (TaskConfig.evaluateMainPhase w config capture fuel self data
            []).1),
          (TaskConfig.evaluateMainPhase w config capture fuel self data
            []).2)) ∧
    (data.context.isForced = true →
      TaskConfig.evaluate w config capture (fuel + 1) self data =
        (evc ++ (evg ++
          (TaskConfig.evaluateMainPhase w config capture fuel self data
            []).1),
          (TaskConfig.evaluateMainPhase w config capture fuel self data
            []).2)) := by
  have hstate : ∀ r : Option String,
      (if earliest > latest then r else Option.none) = r →
      self.checkSkipState w data.vars data.context =
        (evg, .ok (if earliest > latest then
          some "all outputs are up to date'" else Option.none)) := by
    intro _ _
    unfold TaskConfig.checkSkipState
    rw [hIf]
    dsimp only
    rw [if_pos hinputs, hin]
    dsimp only
    rw [hout]
    dsimp only
    by_cases hgt : earliest > latest
    · rw [if_pos hgt, if_pos hgt]
    · rw [if_neg hgt, if_neg hgt]
  have hss := hstate Option.none (by by_cases hgt : earliest > latest <;>
    simp [hgt])
  refine ⟨?_, ?_, ?_⟩
  · intro hnf hgt
    have hskip : self.testSkip w data =
        (evg, .ok (some ⟨data.label, "all outputs are up to date'"⟩)) := by
      unfold TaskConfig.testSkip
      rw [hss]
      dsimp only
      rw [if_pos hgt]
      dsimp only
      rw [hnf]
    rw [TaskConfig.evaluate, hc]
    dsimp only
    rw [TaskConfig.evaluatePhases, hpre]
    dsimp only
    rw [hskip]
    dsimp only
    rw [hnf]
    simp
  · intro hnf hgt
    have hskip : self.testSkip w data = (evg, .ok Option.none) := by
      unfold TaskConfig.testSkip
      rw [hss]
      dsimp only
      rw [if_neg hgt]
    rw [TaskConfig.evaluate, hc]
    dsimp only
    rw [TaskConfig.evaluatePhases, hpre]
    dsimp only
    rw [hskip]
    simp
  · intro hf
    have hskip : self.testSkip w data = (evg, .ok Option.none) := by
      unfold TaskConfig.testSkip
      rw [hss]
      dsimp only
      by_cases hgt : earliest > latest
      · rw [if_pos hgt]
        dsimp only
        rw [hf]
      · rw [if_neg hgt]
    rw [TaskConfig.evaluate, hc]
    dsimp only
    rw [TaskConfig.evaluatePhases, hpre]
    dsimp only
    rw [hskip]
    simp

/-- A task with one input file `in` and one output file `out` and no other
features. -/
def freshTask : TaskConfig :=
  { label := Option.none
    presteps := Option.none
    steps := []
    poststeps := Option.none
    inputs := some ["in"]
    outputs := some ["out"]
    ifGates := Option.none
    unlessGates := Option.none
    silent := false
    vars := Option.none
    forcing := .inherit
    env := Option.none
    dir := Option.none }

/-- A world where `in` was modified at time 5 and `out` at time 10 (output
newer than input). -/
def skipWorld : World :=
  { runProcess := fun _ _ _ _ => .ok { stdout := "", stderr := "", code := 0 }
    isDir := fun _ => true
    mtimeOf := fun p =>
      if p = "in" then some 5 else if p = "out" then some 10 else Option.none
    now := 100
    jsonParse := fun _ => Option.none }

/-- Closed witness for C3: with the output strictly newer than the input
and no forcing, the task is skipped with the outputs-up-to-date reason. -/
theorem freshness_skip_witness :
    TaskConfig.evaluate skipWorld emptyConfig true 1 freshTask plainData =
      ([] ++ ([] ++
        [taskLog "t" "Skipped because all outputs are up to date'"]),
        .ok Option.none) :=
  (freshness_skip skipWorld emptyConfig true 0 freshTask plainData [] [] 5
    10 rfl rfl rfl rfl rfl rfl).1 rfl (by decide)

/-- A world where `in` and `out` have the same modification time 5. -/
def equalWorld : World :=
  { runProcess := fun _ _ _ _ => .ok { stdout := "", stderr := "", code := 0 }
    isDir := fun _ => true
    mtimeOf := fun p =>
      if p = "in" then some 5 else if p = "out" then some 5 else Option.none
    now := 100
    jsonParse := fun _ => Option.none }

/-- C3 counterexample: at equal mtimes the minimum output mtime is `≥` the
maximum input mtime, yet the task is not skipped — the code's comparison is
strict (`earliest_output > latest_input`), so evaluation runs the main
phase and returns captured outputs (`Ok(Some [])`), not the skip result
(`Ok(None)`) the claim demands. -/
theorem freshness_equal_counterexample :
    freshTask.getLatestInput equalWorld VariableSet.new = .ok 5 ∧
    freshTask.getEarliestOutput equalWorld VariableSet.new = .ok 5 ∧
    (5 : Nat) ≥ 5 ∧
    plainData.context.isForced = false ∧
    (TaskConfig.evaluate equalWorld emptyConfig true 1 freshTask
      plainData).2 = .ok (some []) := by
  refine ⟨rfl, rfl, le_refl 5, rfl, ?_⟩
  simp [TaskConfig.evaluate, TaskConfig.evaluatePhases,
    TaskConfig.evaluateMainPhase, TaskConfig.evaluateSteps,
    TaskConfig.testCancel, TaskConfig.testSkip, TaskConfig.checkSkipState,
    TaskConfig.getLatestInput, TaskConfig.getEarliestOutput, testRunGates,
    freshTask, equalWorld, plainData]
  rfl

end Digtask
